import Mathlib

/-!
# Einsatzleiter – Feuerwehr: a shallow embedding of the game logic

The React component `FireICGame` keeps its state in hooks (`pool`, `incidents`,
`score`, `clock`, `running`) and refs (`lastTickRef`, `spawnRef`).  Here every
state updater of the source is a pure function on that state.

Conventions of the embedding:

* timestamps (`Date.now()` readings) are integers (`Int`), durations too;
* `progress` is a JavaScript number; it is modelled by an exact rational (`ℚ`),
  so rounding of doubles is not modelled: the theorems about progress are about
  one update or about order and bounds, which rounding keeps, and nothing is
  stated about the exact value of a sum of several increments;
* `setScore((s) => s + d)` is modelled by returning the delta `d` next to the
  updated value;
* JavaScript objects used as maps (`requirements`, `assigned`) are association
  lists in key insertion order; the keys are the five unit types of `UNIT_TYPES`;
* clock readings are parameters: a tick has its reading `t`, a `createIncident()`
  call its own reading `createdAt`, and the calls of `now()` inside one run of the
  timeout callback of `assignUnit` read the same instant `n`;
* the results of `Math.random()` are parameters as well;
* the state setters run one after the other on the current state, each updater
  once; `resetGame` is not part of the runs considered here.
-/

namespace Firegame

/-! ## Game parameters (`GAME_CONFIG`) -/

/-- The `points` record of `GAME_CONFIG`. -/
structure Points where
  onTime : Int
  slowPenalty : Int
  missedPenalty : Int
  assign : Int
deriving DecidableEq, Repr

/-- The shape of `GAME_CONFIG`. -/
structure GameConfig where
  spawnEveryMs : Int
  baseResolveMs : Int
  travelMs : Int
  deadlineGraceMs : Int
  maxOpenIncidents : Nat
  points : Points
deriving DecidableEq, Repr

/-- The constant `GAME_CONFIG` of the source. -/
def GAME_CONFIG : GameConfig :=
  { spawnEveryMs := 5500
    baseResolveMs := 8000
    travelMs := 3500
    deadlineGraceMs := 10000
    maxOpenIncidents := 6
    points := { onTime := 120, slowPenalty := -80, missedPenalty := -150, assign := 5 } }

/-! ## Data model -/

/-- The keys of `UNIT_TYPES`. -/
inductive UnitType where
  | LF | DLK | RW | ELW | RTW
deriving DecidableEq, Repr

/-- The `status` of a pool unit: the strings "ready" and "busy". -/
inductive UnitStatus where
  | ready | busy
deriving DecidableEq, Repr

/-- The `phase` of a task: the strings "to-scene" and "at-scene". -/
inductive Phase where
  | toScene | atScene
deriving DecidableEq, Repr

/-- The `task` object of a unit: `{ incidentId, phase }`. -/
structure UnitTask where
  incidentId : String
  phase : Phase
deriving DecidableEq, Repr

/-- An element of `pool`: `{ id, type, status, busyUntil, task }`; `task` may be `null`. -/
structure PoolUnit where
  id : String
  type : UnitType
  status : UnitStatus
  busyUntil : Int
  task : Option UnitTask
deriving DecidableEq, Repr

/-- The `status` of an incident: "open", "working", "done", "missed". -/
inductive Status where
  | open_ | working | done | missed
deriving DecidableEq, Repr

/-- An element of `incidents`, with the fields `createIncident` gives it. -/
structure Incident where
  id : String
  name : String
  emoji : String
  color : String
  requirements : List (UnitType × Nat)
  assigned : List (UnitType × List String)
  status : Status
  createdAt : Int
  deadline : Int
  startedAt : Option Int
  progress : ℚ
  lastUpdate : Int
  message : String
deriving DecidableEq

/-! ## Per-tick incident update -/

/-- The function `updateIncidentProgress(t)` applied to `inc`: the updated incident and
the amount its `setScore` call adds to the score (0 when it makes no call).
`inc.lastUpdate || t` takes `t` when `lastUpdate` is the falsy number 0. -/
def updateIncidentProgress (t : Int) (inc : Incident) : Incident × Int :=
  if inc.status = Status.done ∨ inc.status = Status.missed then (inc, 0)
  else if t > inc.deadline ∧ inc.status ≠ Status.working then
    ({ inc with status := Status.missed, message := "Einsatz eskaliert (zu spät begonnen)." },
      if inc.status ≠ Status.missed then GAME_CONFIG.points.missedPenalty else 0)
  else if inc.status = Status.working then
    let dt : Int := t - (if inc.lastUpdate = 0 then t else inc.lastUpdate)
    let newProg : ℚ := min 1 (inc.progress + (dt : ℚ) / (GAME_CONFIG.baseResolveMs : ℚ))
    let updated : Incident := { inc with progress := newProg, lastUpdate := t }
    if newProg ≥ 1 then
      let onTime : Bool := decide (t ≤ inc.deadline)
      ({ updated with
          status := Status.done
          message := if onTime then "Abarbeitung rechtzeitig." else "Abarbeitung verspätet." },
        if onTime then GAME_CONFIG.points.onTime else GAME_CONFIG.points.slowPenalty)
    else (updated, 0)
  else ({ inc with lastUpdate := t }, 0)

/-! ## Requirements and the `assigned` map -/

/-- The key string of a unit type, as printed in messages. -/
def UnitType.key : UnitType → String
  | UnitType.LF => "LF"
  | UnitType.DLK => "DLK"
  | UnitType.RW => "RW"
  | UnitType.ELW => "ELW"
  | UnitType.RTW => "RTW"

/-- The five keys of `UNIT_TYPES`, in source order. -/
def UNIT_TYPES : List UnitType :=
  [UnitType.LF, UnitType.DLK, UnitType.RW, UnitType.ELW, UnitType.RTW]

/-- The expression `assigned[type] || []`: the list stored under `type`, or the empty list. -/
def getAssigned : List (UnitType × List String) → UnitType → List String
  | [], _ => []
  | (k, v) :: rest, type => if k = type then v else getAssigned rest type

/-- The assignment `assigned[type] = v`: overwrite the entry of an existing key in place,
or add the key at the end. -/
def setAssigned : List (UnitType × List String) → UnitType → List String →
    List (UnitType × List String)
  | [], type, v => [(type, v)]
  | (k, w) :: rest, type, v =>
    if k = type then (k, v) :: rest else (k, w) :: setAssigned rest type v

/-- The function `requirementsMet(inc)`: every entry `[type, need]` of `requirements` has
`(assigned[type]?.length || 0) >= need`. -/
def requirementsMet (inc : Incident) : Bool :=
  inc.requirements.all (fun p => decide ((getAssigned inc.assigned p.1).length ≥ p.2))

/-! ## Arrival effect and unassign, per incident -/

/-- The updater that the timeout callback of `assignUnit` maps over the incident list:
`incidentId`, `type` and `unitId` (the id of the dispatched unit) come from the closure,
`n` is the reading of `now()`. -/
def arrivalIncident (incidentId : String) (type : UnitType) (unitId : String) (n : Int)
    (inc : Incident) : Incident :=
  if inc.id ≠ incidentId ∨ (inc.status ≠ Status.open_ ∧ inc.status ≠ Status.working) then inc
  else
    let assigned := setAssigned inc.assigned type (getAssigned inc.assigned type ++ [unitId])
    let message := unitId ++ " eingetroffen (" ++ type.key ++ ")."
    if requirementsMet { inc with assigned := assigned } = true ∧ inc.status ≠ Status.working then
      { inc with
          assigned := assigned, status := Status.working, startedAt := some n,
          lastUpdate := n, message := message }
    else
      { inc with assigned := assigned, lastUpdate := n, message := message }

/-- The updater that `unassignUnit(incidentId, type, unitId)` maps over the incident list. -/
def unassignIncident (incidentId : String) (type : UnitType) (unitId : String)
    (inc : Incident) : Incident :=
  if inc.id ≠ incidentId ∨ inc.status ≠ Status.open_ then inc
  else
    { inc with
        assigned := setAssigned inc.assigned type
          ((getAssigned inc.assigned type).filter (fun id => decide (id ≠ unitId)))
        message := unitId ++ " abgezogen." }

/-! ## The unit pool -/

/-- The constant `START_UNITS`: ids and types of the roster. -/
def START_UNITS : List (String × UnitType) :=
  [("LF-1", UnitType.LF), ("LF-2", UnitType.LF), ("DLK-1", UnitType.DLK),
   ("RW-1", UnitType.RW), ("ELW-1", UnitType.ELW), ("RTW-1", UnitType.RTW),
   ("RTW-2", UnitType.RTW)]

/-- The initial value of `pool`: every start unit ready, `busyUntil` 0, no task. -/
def initialPool : List PoolUnit :=
  START_UNITS.map (fun u =>
    { id := u.1, type := u.2, status := UnitStatus.ready, busyUntil := 0, task := none })

/-- JavaScript's `findIndex`: the index of the first element satisfying `p`; `none` stands
for the result -1. -/
def findIndex (p : PoolUnit → Bool) : List PoolUnit → Option Nat
  | [] => none
  | u :: us => if p u then some 0 else (findIndex p us).map (fun i => i + 1)

/-- The pool updater of the game loop ("Release Units when busyUntil reached"). -/
def releaseUnit (t : Int) (u : PoolUnit) : PoolUnit :=
  if u.status ≠ UnitStatus.busy then u
  else if t ≥ u.busyUntil then
    { u with status := UnitStatus.ready, busyUntil := 0, task := none }
  else u

/-- The release step of a tick: `p.map(...)` over the pool. -/
def releasePool (t : Int) (p : List PoolUnit) : List PoolUnit :=
  p.map (releaseUnit t)

/-- The pool updater of the timeout callback: the unit with id `unitId` is (re)committed
until `now() + baseResolveMs + travelMs` with an "at-scene" task. -/
def arrivalPool (incidentId : String) (unitId : String) (n : Int)
    (p : List PoolUnit) : List PoolUnit :=
  p.map (fun u =>
    if u.id = unitId then
      { u with
          status := UnitStatus.busy
          busyUntil := n + (GAME_CONFIG.baseResolveMs + GAME_CONFIG.travelMs)
          task := some { incidentId := incidentId, phase := Phase.atScene } }
    else u)

/-! ## Incident creation -/

/-- An entry of `INCIDENT_TEMPLATES`. -/
structure Template where
  name : String
  requirements : List (UnitType × Nat)
  emoji : String
  color : String
deriving DecidableEq

/-- The constant `INCIDENT_TEMPLATES`. -/
def INCIDENT_TEMPLATES : List Template :=
  [ { name := "Wohnungsbrand"
      requirements := [(UnitType.LF, 2), (UnitType.DLK, 1), (UnitType.ELW, 1)]
      emoji := "🔥", color := "from-red-500/90 to-rose-500/90" },
    { name := "VU eingeklemmt"
      requirements := [(UnitType.LF, 1), (UnitType.RW, 1), (UnitType.RTW, 1), (UnitType.ELW, 1)]
      emoji := "🚗", color := "from-amber-500/90 to-orange-500/90" },
    { name := "Küchenbrand klein"
      requirements := [(UnitType.LF, 1), (UnitType.RTW, 1)]
      emoji := "🍳", color := "from-red-400/90 to-yellow-500/90" },
    { name := "Person mit CO-Verdacht"
      requirements := [(UnitType.LF, 1), (UnitType.RTW, 1), (UnitType.ELW, 1)]
      emoji := "🧯", color := "from-sky-500/90 to-cyan-500/90" },
    { name := "Wasserschaden"
      requirements := [(UnitType.LF, 1)]
      emoji := "💧", color := "from-blue-500/90 to-indigo-500/90" },
    { name := "Brandmeldeanlage"
      requirements := [(UnitType.LF, 1), (UnitType.ELW, 1)]
      emoji := "🚨", color := "from-rose-500/90 to-pink-500/90" } ]

/-- The template `INCIDENT_TEMPLATES[i]` for an index below the length of the table. -/
def templateAt (i : Fin 6) : Template :=
  INCIDENT_TEMPLATES.getD i.val
    { name := "", requirements := [], emoji := "", color := "" }

/-- The random choices of one `createIncident()` call and its clock reading:
`tpl` is `Math.floor(Math.random() * INCIDENT_TEMPLATES.length)`, `suffix` the six
characters that `uid` draws, `createdAt` the reading of `now()`, `jitter` the value
`Math.floor(Math.random() * 10000)`. -/
structure SpawnChoice where
  tpl : Fin 6
  suffix : String
  createdAt : Int
  jitter : Fin 10000
deriving DecidableEq

/-- The function `createIncident()` for given random choices. -/
def createIncident (c : SpawnChoice) : Incident :=
  let tpl := templateAt c.tpl
  { id := "einsatz-" ++ c.suffix
    name := tpl.name
    emoji := tpl.emoji
    color := tpl.color
    requirements := tpl.requirements
    assigned := []
    status := Status.open_
    createdAt := c.createdAt
    deadline := c.createdAt + GAME_CONFIG.baseResolveMs + GAME_CONFIG.deadlineGraceMs
      + (c.jitter.val : Int)
    startedAt := none
    progress := 0
    lastUpdate := c.createdAt
    message := "" }

/-! ## The whole game state -/

/-- A pending `setTimeout` callback of `assignUnit`: the values its closure holds and the
earliest time at which it fires. -/
structure Timer where
  incidentId : String
  type : UnitType
  unitId : String
  due : Int
deriving DecidableEq

/-- The state of `FireICGame`: the hooks `running`, `score`, `clock`, `pool`, `incidents`,
the refs `lastTickRef` and `spawnRef`, and the timeouts that have not fired yet. -/
structure Game where
  running : Bool
  score : Int
  clock : Int
  pool : List PoolUnit
  incidents : List Incident
  lastTick : Int
  spawnAcc : Int
  timers : List Timer
deriving DecidableEq

/-- The state after mounting (and after `resetGame`). -/
def initialGame : Game :=
  { running := false, score := 0, clock := 0, pool := initialPool, incidents := [],
    lastTick := 0, spawnAcc := 0, timers := [] }

/-- The spawner's incident updater: nothing at the cap, else one new incident at the end. -/
def spawnIncident (c : SpawnChoice) (list : List Incident) : List Incident :=
  if list.length ≥ GAME_CONFIG.maxOpenIncidents then list else list ++ [createIncident c]

/-- One run of `tick()` with `t = now()`; `c` holds the choices of `createIncident()` in
case the spawner calls it.  Not running: only `lastTickRef` moves.  Running: clock, spawner,
release of units, then `updateIncidentProgress(t)` over the list. -/
def tick (t : Int) (c : SpawnChoice) (g : Game) : Game :=
  if g.running = false then { g with lastTick := t }
  else
    let last : Int := if g.lastTick = 0 then t else g.lastTick
    let dt : Int := t - last
    let acc : Int := g.spawnAcc + dt
    let spawned : List Incident :=
      if acc ≥ GAME_CONFIG.spawnEveryMs then spawnIncident c g.incidents else g.incidents
    let updated : List (Incident × Int) := spawned.map (updateIncidentProgress t)
    { g with
        lastTick := t
        clock := g.clock + dt
        spawnAcc := if acc ≥ GAME_CONFIG.spawnEveryMs then 0 else acc
        pool := releasePool t g.pool
        incidents := updated.map Prod.fst
        score := g.score + (updated.map Prod.snd).sum }

/-- The predicate of the `findIndex` call in `assignUnit`:
`u.type === type && u.status === "ready"`. -/
def isReadyOfType (type : UnitType) (u : PoolUnit) : Bool :=
  decide (u.type = type) && decide (u.status = UnitStatus.ready)

/-- The function `assignUnit(incidentId, type)` with `t = now()`: without a ready unit of the
type nothing happens; else the first such unit is set busy until arrival, the timeout is
registered and the assign points are added. -/
def assignUnit (incidentId : String) (type : UnitType) (t : Int) (g : Game) : Game :=
  match findIndex (isReadyOfType type) g.pool with
  | none => g
  | some unitIndex =>
    match g.pool[unitIndex]? with
    | none => g
    | some unit =>
      let arrival : Int := t + GAME_CONFIG.travelMs
      let updatedUnit : PoolUnit :=
        { unit with
            status := UnitStatus.busy
            busyUntil := arrival
            task := some { incidentId := incidentId, phase := Phase.toScene } }
      { g with
          pool := g.pool.set unitIndex updatedUnit
          timers := g.timers ++
            [{ incidentId := incidentId, type := type, unitId := unit.id,
               due := t + GAME_CONFIG.travelMs }]
          score := g.score + GAME_CONFIG.points.assign }

/-- The timeout callback of the `k`-th pending timer, run at clock reading `n`: it does not
run before the timer is due; it updates the incidents, then the pool, and is gone. -/
def arrive (k : Nat) (n : Int) (g : Game) : Game :=
  match g.timers[k]? with
  | none => g
  | some tm =>
    if n < tm.due then g
    else
      { g with
          incidents := g.incidents.map (arrivalIncident tm.incidentId tm.type tm.unitId n)
          pool := arrivalPool tm.incidentId tm.unitId n g.pool
          timers := g.timers.eraseIdx k }

/-- The function `unassignUnit(incidentId, type, unitId)`. -/
def unassignUnit (incidentId : String) (type : UnitType) (unitId : String) (g : Game) : Game :=
  { g with incidents := g.incidents.map (unassignIncident incidentId type unitId) }

/-- What can happen to the game: the Start/Pause button, an animation frame, a click on an
assign or unassign button, a timeout firing. -/
inductive Event where
  | toggleRunning
  | tick (t : Int) (c : SpawnChoice)
  | assign (incidentId : String) (type : UnitType) (t : Int)
  | arrive (k : Nat) (n : Int)
  | unassign (incidentId : String) (type : UnitType) (unitId : String)
deriving DecidableEq

/-- The state after one event. -/
def step (g : Game) : Event → Game
  | Event.toggleRunning => { g with running := !g.running }
  | Event.tick t c => tick t c g
  | Event.assign incidentId type t => assignUnit incidentId type t g
  | Event.arrive k n => arrive k n g
  | Event.unassign incidentId type unitId => unassignUnit incidentId type unitId g

/-- The state after a sequence of events, oldest first. -/
def run (g : Game) (evs : List Event) : Game :=
  evs.foldl step g

/-! ## Sequences of updates of one incident -/

/-- An incident is terminal when its status is "done" or "missed". -/
def Terminal (inc : Incident) : Prop :=
  inc.status = Status.done ∨ inc.status = Status.missed

instance (inc : Incident) : Decidable (Terminal inc) :=
  inferInstanceAs (Decidable (_ ∨ _))

/-- An incident is live when its status is "open" or "working". -/
def Live (inc : Incident) : Prop :=
  inc.status = Status.open_ ∨ inc.status = Status.working

instance (inc : Incident) : Decidable (Live inc) :=
  inferInstanceAs (Decidable (_ ∨ _))

/-- The incident after the ticks at times `ts` (oldest first), each one applying
`updateIncidentProgress`. -/
def runTicks (inc : Incident) : List Int → Incident
  | [] => inc
  | t :: ts => runTicks (updateIncidentProgress t inc).1 ts

/-- The score deltas that the ticks at times `ts` produce for the incident, one per tick. -/
def tickScores (inc : Incident) : List Int → List Int
  | [] => []
  | t :: ts => (updateIncidentProgress t inc).2 :: tickScores (updateIncidentProgress t inc).1 ts

/-- What can happen to one incident of the list: a tick, the arrival effect of some
dispatch, an unassign call. -/
inductive IncidentEvent where
  | tick (t : Int)
  | arrival (incidentId : String) (type : UnitType) (unitId : String) (n : Int)
  | unassign (incidentId : String) (type : UnitType) (unitId : String)
deriving DecidableEq

/-- The incident after one event. -/
def applyEvent (inc : Incident) : IncidentEvent → Incident
  | IncidentEvent.tick t => (updateIncidentProgress t inc).1
  | IncidentEvent.arrival incidentId type unitId n =>
    arrivalIncident incidentId type unitId n inc
  | IncidentEvent.unassign incidentId type unitId => unassignIncident incidentId type unitId inc

/-- The incident after a sequence of events, oldest first. -/
def applyEvents (inc : Incident) (evs : List IncidentEvent) : Incident :=
  evs.foldl applyEvent inc

/-- The clock reading of an event, if it takes one. -/
def IncidentEvent.reading : IncidentEvent → Option Int
  | IncidentEvent.tick t => some t
  | IncidentEvent.arrival _ _ _ n => some n
  | IncidentEvent.unassign _ _ _ => none

/-- The clock readings of the events are non-decreasing and not below `start`. -/
def ReadingsOrdered (start : Int) : List IncidentEvent → Prop
  | [] => True
  | e :: es =>
    match e.reading with
    | some r => start ≤ r ∧ ReadingsOrdered r es
    | none => ReadingsOrdered start es

/-- The elapsed time that a tick at `t` uses for a working incident: `t - (lastUpdate || t)`. -/
def elapsed (t : Int) (inc : Incident) : Int :=
  t - (if inc.lastUpdate = 0 then t else inc.lastUpdate)

/-- The progress value a tick at `t` computes for a working incident. -/
def newProgress (t : Int) (inc : Incident) : ℚ :=
  min 1 (inc.progress + (elapsed t inc : ℚ) / (GAME_CONFIG.baseResolveMs : ℚ))

/-! ## Counting incidents and assignments -/

/-- The list `openIncidents` of the component: the incidents with status open or working. -/
def openIncidents (incidents : List Incident) : List Incident :=
  incidents.filter (fun i => decide (i.status = Status.open_ ∨ i.status = Status.working))

/-- How often unit id `u` occurs in the `assigned[type]` lists of one incident, over all
types. -/
def occursIn (u : String) (inc : Incident) : Nat :=
  (UNIT_TYPES.map (fun ty => (getAssigned inc.assigned ty).count u)).sum

/-- How often unit id `u` occurs in the assigned lists of all incidents of the list. -/
def occurrences (u : String) (incidents : List Incident) : Nat :=
  (incidents.map (occursIn u)).sum

/-- The occurrences of `u` in one incident if it is open or working, 0 if it is done or
missed. -/
def liveOccursIn (u : String) (inc : Incident) : Nat :=
  if inc.status = Status.open_ ∨ inc.status = Status.working then occursIn u inc else 0

/-- How often unit id `u` occurs in the assigned lists of the open and working incidents. -/
def liveOccurrences (u : String) (incidents : List Incident) : Nat :=
  (incidents.map (liveOccursIn u)).sum

/-- The number of timeouts still pending for unit id `u`. -/
def pending (u : String) (timers : List Timer) : Nat :=
  (timers.map (fun tm => if tm.unitId = u then 1 else 0)).sum

/-- The incident ids of the list are pairwise different. -/
def distinctIds (incidents : List Incident) : Bool :=
  decide (incidents.map (fun i => i.id)).Nodup

/-- No unit that a tick at `t` would release is still under way to an incident or listed in
an open or working incident. -/
def noEarlyRelease (t : Int) (g : Game) : Bool :=
  g.pool.all (fun u =>
    !(decide (u.status = UnitStatus.busy) && decide (u.busyUntil ≤ t)) ||
      decide (liveOccurrences u.id g.incidents + pending u.id g.timers = 0))

/-- The condition on one event of a run without early release and without a clash of
random incident ids: a running tick releases no unit that is still bound, and the incident
ids after the event are pairwise different. -/
def safeStep (g : Game) (e : Event) : Bool :=
  match e with
  | Event.tick t _ => (!g.running || noEarlyRelease t g) && distinctIds (step g e).incidents
  | _ => true

/-- Every event of the run satisfies `safeStep` in the state it meets. -/
def safeRun (g : Game) : List Event → Bool
  | [] => true
  | e :: es => safeStep g e && safeRun (step g e) es

/-- The invariant behind single assignment: unit ids and incident ids are pairwise
different, every unit id has at most one pending timer or occurrence in an open or working
incident, and a ready unit has none. -/
def SingleInv (g : Game) : Prop :=
  (g.pool.map (fun u => u.id)).Nodup ∧
  (g.incidents.map (fun i => i.id)).Nodup ∧
  (∀ u : String, liveOccurrences u g.incidents + pending u g.timers ≤ 1) ∧
  (∀ unit ∈ g.pool, unit.status = UnitStatus.ready →
    liveOccurrences unit.id g.incidents + pending unit.id g.timers = 0)

/-- Status and requirements of an incident fit together: the requirements are met exactly
when the status is working or done, and an open incident has progress 0. -/
def Coherent (inc : Incident) : Prop :=
  (requirementsMet inc = true ↔ (inc.status = Status.working ∨ inc.status = Status.done)) ∧
  (inc.status = Status.open_ → inc.progress = 0)

/-! ## Example incidents and states -/

/-- A freshly created "Küchenbrand klein" (LF 1, RTW 1): created at 1000, no jitter, so its
deadline is 19000. -/
def kitchenFire : Incident :=
  createIncident { tpl := 2, suffix := "k3x9qa", createdAt := 1000, jitter := 0 }

/-- The open kitchen fire with LF-1 on scene since 4500. -/
def kitchenFireWithLF : Incident :=
  arrivalIncident kitchenFire.id UnitType.LF "LF-1" 4500 kitchenFire

/-- The kitchen fire at work since 4500 with both units on scene. -/
def kitchenFireWorking : Incident :=
  { kitchenFire with
      assigned := [(UnitType.LF, ["LF-1"]), (UnitType.RTW, ["RTW-1"])]
      status := Status.working, startedAt := some 4500, lastUpdate := 4500
      message := "RTW-1 eingetroffen (RTW)." }

/-- The kitchen fire resolved in time at 12500. -/
def kitchenFireDone : Incident :=
  { kitchenFireWorking with
      status := Status.done, progress := 1, lastUpdate := 12500
      message := "Abarbeitung rechtzeitig." }

/-- The working kitchen fire with `lastUpdate` stamped at clock reading 0. -/
def zeroStamp : Incident :=
  { kitchenFireWorking with startedAt := some 0, lastUpdate := 0 }

/-- A running game in which the kitchen fire has been resolved and all units are back. -/
def doneGame : Game :=
  { initialGame with running := true, incidents := [kitchenFireDone], lastTick := 20000 }

/-- A running game with the open kitchen fire, LF-1 attached to it and bound until 16000. -/
def attachedGame : Game :=
  { initialGame with
      running := true
      incidents := [kitchenFireWithLF]
      pool := arrivalPool kitchenFire.id "LF-1" 4500 initialPool
      lastTick := 5000
      score := 5 }

/-! ## Example runs -/

/-- The choices of a `createIncident()` call at clock reading `t`. -/
def spawnAt (tpl : Fin 6) (suffix : String) (t : Int) (jitter : Fin 10000) : SpawnChoice :=
  { tpl := tpl, suffix := suffix, createdAt := t, jitter := jitter }

/-- The spawn choice number `k` of the run `sixMissed`. -/
def numberedChoice (k : Nat) : SpawnChoice :=
  spawnAt 4 ("n0000" ++ toString k) (1000 + 5500 * (k : Int)) 0

/-- A run in which a second LF is sent to a water damage that finishes before the LF
arrives: start, spawn at 6500, LF-1 dispatched at 7000 and on scene at 10500 (work starts),
LF-2 dispatched at 16000, the incident is done at the tick of 18500, LF-2 arrives at 19500. -/
def lateSecondTruck : List Event :=
  [Event.toggleRunning, Event.tick 1000 (spawnAt 4 "w4t3r0" 1000 0),
   Event.tick 6500 (spawnAt 4 "w4t3r0" 6500 0),
   Event.assign "einsatz-w4t3r0" UnitType.LF 7000, Event.arrive 0 10500,
   Event.tick 12000 (spawnAt 2 "k1tch3" 12000 0),
   Event.assign "einsatz-w4t3r0" UnitType.LF 16000,
   Event.tick 18500 (spawnAt 5 "b4m4a7" 18500 0),
   Event.arrive 0 19500]

/-- A run in which LF-1 serves two incidents one after the other: the water damage (LF 1) is
at work from 10500 and done at the tick of 18500; the tick of 22000 releases LF-1; it is
dispatched at 22100 to the kitchen fire spawned at 12000 and arrives there at 25600. -/
def reuseAfterDone : List Event :=
  [Event.toggleRunning, Event.tick 1000 (spawnAt 4 "w4t3r0" 1000 0),
   Event.tick 6500 (spawnAt 4 "w4t3r0" 6500 0),
   Event.assign "einsatz-w4t3r0" UnitType.LF 7000, Event.arrive 0 10500,
   Event.tick 12000 (spawnAt 2 "k1tch3" 12000 0),
   Event.tick 18500 (spawnAt 5 "b4m4a7" 18500 0),
   Event.tick 22000 (spawnAt 0 "f14t00" 22000 0),
   Event.assign "einsatz-k1tch3" UnitType.LF 22100, Event.arrive 0 25600]

/-- A run that attaches LF-1 twice to the same open flat fire (LF 2, DLK 1, ELW 1, created
at 6500, deadline 34499): LF-1 is dispatched at 7000 and on scene at 10500, bound until
22000; the tick of 22000 releases it while the incident is still open; dispatched again at
22100 it arrives at 25600. -/
def doubleAttach : List Event :=
  [Event.toggleRunning, Event.tick 1000 (spawnAt 0 "f14t00" 1000 9999),
   Event.tick 6500 (spawnAt 0 "f14t00" 6500 9999),
   Event.assign "einsatz-f14t00" UnitType.LF 7000, Event.arrive 0 10500,
   Event.tick 12000 (spawnAt 2 "k1tch3" 12000 0),
   Event.tick 17500 (spawnAt 5 "b4m4a7" 17500 0),
   Event.tick 22000 (spawnAt 4 "w4t3r0" 22000 0),
   Event.assign "einsatz-f14t00" UnitType.LF 22100, Event.arrive 0 25600]

/-- A run in which LF-1 is released while its incident is at work: kitchen fire (LF 1,
RTW 1) spawned at 6500 with deadline 24500, LF-1 dispatched at 7000 and on scene at 10500
(bound until 22000), RTW-1 dispatched at 14000 and on scene at 17500, where work starts; the
tick of 22000 releases LF-1 at progress 9/16. -/
def earlyRelease : List Event :=
  [Event.toggleRunning, Event.tick 1000 (spawnAt 2 "k1tch3" 1000 0),
   Event.tick 6500 (spawnAt 2 "k1tch3" 6500 0),
   Event.assign "einsatz-k1tch3" UnitType.LF 7000, Event.arrive 0 10500,
   Event.tick 12000 (spawnAt 4 "w4t3r0" 12000 0),
   Event.assign "einsatz-k1tch3" UnitType.RTW 14000, Event.arrive 0 17500,
   Event.tick 22000 (spawnAt 5 "b4m4a7" 22000 0)]

/-- A run with a pause: the water damage (created at 6500, deadline 24500) is at work since
10500 with LF-1; the game is paused after the frame of 10516, frames at 11000 and 30000 pass
while paused, then the game is resumed. -/
def pausedRun : List Event :=
  [Event.toggleRunning, Event.tick 1000 (spawnAt 4 "w4t3r0" 1000 0),
   Event.tick 6500 (spawnAt 4 "w4t3r0" 6500 0),
   Event.assign "einsatz-w4t3r0" UnitType.LF 7000, Event.arrive 0 10500,
   Event.tick 10516 (spawnAt 2 "k1tch3" 10516 0),
   Event.toggleRunning, Event.tick 11000 (spawnAt 2 "k1tch3" 11000 0),
   Event.tick 30000 (spawnAt 2 "k1tch3" 30000 0),
   Event.toggleRunning]

/-- A run in which six incidents are spawned (at 6500, 12000, ..., 34000), nobody is
dispatched, and the tick of 70000 finds all of them past their deadline. -/
def sixMissed : List Event :=
  [Event.toggleRunning, Event.tick 1000 (numberedChoice 0), Event.tick 6500 (numberedChoice 1),
   Event.tick 12000 (numberedChoice 2), Event.tick 17500 (numberedChoice 3),
   Event.tick 23000 (numberedChoice 4), Event.tick 28500 (numberedChoice 5),
   Event.tick 34000 (numberedChoice 6), Event.tick 70000 (numberedChoice 7)]

/-! # Theorems -/

/-! ## Distinct constructors, as rewrite rules for evaluating examples -/

@[simp] theorem Status.open__ne_working : (Status.open_ = Status.working) = False := by simp

@[simp] theorem Status.open__ne_done : (Status.open_ = Status.done) = False := by simp

@[simp] theorem Status.open__ne_missed : (Status.open_ = Status.missed) = False := by simp

@[simp] theorem Status.working_ne_open_ : (Status.working = Status.open_) = False := by simp

@[simp] theorem Status.working_ne_done : (Status.working = Status.done) = False := by simp

@[simp] theorem Status.working_ne_missed : (Status.working = Status.missed) = False := by simp

@[simp] theorem Status.done_ne_open_ : (Status.done = Status.open_) = False := by simp

@[simp] theorem Status.done_ne_working : (Status.done = Status.working) = False := by simp

@[simp] theorem Status.done_ne_missed : (Status.done = Status.missed) = False := by simp

@[simp] theorem Status.missed_ne_open_ : (Status.missed = Status.open_) = False := by simp

@[simp] theorem Status.missed_ne_working : (Status.missed = Status.working) = False := by simp

@[simp] theorem Status.missed_ne_done : (Status.missed = Status.done) = False := by simp

@[simp] theorem UnitStatus.ready_ne_busy : (UnitStatus.ready = UnitStatus.busy) = False := by simp

@[simp] theorem UnitStatus.busy_ne_ready : (UnitStatus.busy = UnitStatus.ready) = False := by simp

@[simp] theorem Phase.toScene_ne_atScene : (Phase.toScene = Phase.atScene) = False := by simp

@[simp] theorem Phase.atScene_ne_toScene : (Phase.atScene = Phase.toScene) = False := by simp

@[simp] theorem UnitType.LF_ne_DLK : (UnitType.LF = UnitType.DLK) = False := by simp

@[simp] theorem UnitType.LF_ne_RW : (UnitType.LF = UnitType.RW) = False := by simp

@[simp] theorem UnitType.LF_ne_ELW : (UnitType.LF = UnitType.ELW) = False := by simp

@[simp] theorem UnitType.LF_ne_RTW : (UnitType.LF = UnitType.RTW) = False := by simp

@[simp] theorem UnitType.DLK_ne_LF : (UnitType.DLK = UnitType.LF) = False := by simp

@[simp] theorem UnitType.DLK_ne_RW : (UnitType.DLK = UnitType.RW) = False := by simp

@[simp] theorem UnitType.DLK_ne_ELW : (UnitType.DLK = UnitType.ELW) = False := by simp

@[simp] theorem UnitType.DLK_ne_RTW : (UnitType.DLK = UnitType.RTW) = False := by simp

@[simp] theorem UnitType.RW_ne_LF : (UnitType.RW = UnitType.LF) = False := by simp

@[simp] theorem UnitType.RW_ne_DLK : (UnitType.RW = UnitType.DLK) = False := by simp

@[simp] theorem UnitType.RW_ne_ELW : (UnitType.RW = UnitType.ELW) = False := by simp

@[simp] theorem UnitType.RW_ne_RTW : (UnitType.RW = UnitType.RTW) = False := by simp

@[simp] theorem UnitType.ELW_ne_LF : (UnitType.ELW = UnitType.LF) = False := by simp

@[simp] theorem UnitType.ELW_ne_DLK : (UnitType.ELW = UnitType.DLK) = False := by simp

@[simp] theorem UnitType.ELW_ne_RW : (UnitType.ELW = UnitType.RW) = False := by simp

@[simp] theorem UnitType.ELW_ne_RTW : (UnitType.ELW = UnitType.RTW) = False := by simp

@[simp] theorem UnitType.RTW_ne_LF : (UnitType.RTW = UnitType.LF) = False := by simp

@[simp] theorem UnitType.RTW_ne_DLK : (UnitType.RTW = UnitType.DLK) = False := by simp

@[simp] theorem UnitType.RTW_ne_RW : (UnitType.RTW = UnitType.RW) = False := by simp

@[simp] theorem UnitType.RTW_ne_ELW : (UnitType.RTW = UnitType.ELW) = False := by simp

/-! ## Basic facts about `updateIncidentProgress` -/

theorem update_terminal (t : Int) (inc : Incident) (h : Terminal inc) :
    updateIncidentProgress t inc = (inc, 0) := by
  unfold Terminal at h
  simp [updateIncidentProgress, h]

theorem update_open_late (t : Int) (inc : Incident) (h : inc.status = Status.open_)
    (ht : t > inc.deadline) :
    updateIncidentProgress t inc =
      ({ inc with status := Status.missed, message := "Einsatz eskaliert (zu spät begonnen)." },
        -150) := by
  simp [updateIncidentProgress, h, ht, GAME_CONFIG]

theorem update_open_early (t : Int) (inc : Incident) (h : inc.status = Status.open_)
    (ht : t ≤ inc.deadline) :
    updateIncidentProgress t inc = ({ inc with lastUpdate := t }, 0) := by
  have : ¬ (inc.deadline < t) := not_lt.mpr ht
  simp [updateIncidentProgress, h, this]

theorem update_working_unfinished (t : Int) (inc : Incident) (h : inc.status = Status.working)
    (hp : newProgress t inc < 1) :
    updateIncidentProgress t inc =
      ({ inc with progress := newProgress t inc, lastUpdate := t }, 0) := by
  have hp2 : ¬ (newProgress t inc ≥ 1) := not_le.mpr hp
  unfold updateIncidentProgress
  rw [if_neg (by simp [h]), if_neg (by simp [h]), if_pos h]
  exact if_neg hp2

theorem update_working_finished (t : Int) (inc : Incident) (h : inc.status = Status.working)
    (hp : 1 ≤ newProgress t inc) :
    updateIncidentProgress t inc =
      ({ inc with
          progress := newProgress t inc, lastUpdate := t, status := Status.done
          message := if decide (t ≤ inc.deadline) = true then "Abarbeitung rechtzeitig."
            else "Abarbeitung verspätet." },
        if decide (t ≤ inc.deadline) = true then 120 else -80) := by
  have hp2 : newProgress t inc ≥ 1 := hp
  unfold updateIncidentProgress
  rw [if_neg (by simp [h]), if_neg (by simp [h]), if_pos h]
  exact if_pos hp2

theorem newProgress_le_one (t : Int) (inc : Incident) : newProgress t inc ≤ 1 :=
  min_le_left _ _

/-! ## Sequences of ticks -/

theorem runTicks_terminal (inc : Incident) (ts : List Int) (h : Terminal inc) :
    runTicks inc ts = inc := by
  induction ts with
  | nil => rfl
  | cons t ts ih => simp [runTicks, update_terminal t inc h, ih]

theorem tickScores_terminal (inc : Incident) (ts : List Int) (h : Terminal inc) :
    tickScores inc ts = List.replicate ts.length 0 := by
  induction ts with
  | nil => rfl
  | cons t ts ih => simp [tickScores, update_terminal t inc h, ih, List.replicate_succ]

theorem runTicks_append (inc : Incident) (as bs : List Int) :
    runTicks inc (as ++ bs) = runTicks (runTicks inc as) bs := by
  induction as generalizing inc with
  | nil => rfl
  | cons t ts ih => simp [runTicks, ih]

theorem live_or_terminal (inc : Incident) : Live inc ∨ Terminal inc := by
  unfold Live Terminal
  cases inc.status <;> simp

theorem not_terminal_of_live (inc : Incident) (h : Live inc) : ¬ Terminal inc := by
  unfold Live at h
  unfold Terminal
  rcases h with h | h <;> simp [h]

theorem not_live_of_terminal (inc : Incident) (h : Terminal inc) : ¬ Live inc :=
  fun hl => not_terminal_of_live inc hl h

/-- One tick on a live incident either keeps it live and scores nothing, or makes it
terminal and scores exactly one of the three outcome values. -/
theorem update_live_cases (t : Int) (inc : Incident) (h : Live inc) :
    (Live (updateIncidentProgress t inc).1 ∧ (updateIncidentProgress t inc).2 = 0) ∨
    (Terminal (updateIncidentProgress t inc).1 ∧
      ((updateIncidentProgress t inc).2 = 120 ∨ (updateIncidentProgress t inc).2 = -80 ∨
        (updateIncidentProgress t inc).2 = -150)) := by
  rcases h with h | h
  · by_cases ht : t > inc.deadline
    · right
      rw [update_open_late t inc h ht]
      exact ⟨Or.inr rfl, Or.inr (Or.inr rfl)⟩
    · left
      rw [update_open_early t inc h (not_lt.mp ht)]
      exact ⟨Or.inl h, rfl⟩
  · by_cases hp : 1 ≤ newProgress t inc
    · right
      rw [update_working_finished t inc h hp]
      refine ⟨Or.inl rfl, ?_⟩
      by_cases hd : t ≤ inc.deadline <;> simp [hd]
    · left
      rw [update_working_unfinished t inc h (not_le.mp hp)]
      exact ⟨Or.inr h, rfl⟩

/-- The scores of a sequence of ticks on an incident that starts open or working. -/
theorem scoring_of_live (inc : Incident) (ts : List Int) (h : Live inc) :
    (Live (runTicks inc ts) →
      tickScores inc ts = List.replicate ts.length 0 ∧ (tickScores inc ts).sum = 0) ∧
    (Terminal (runTicks inc ts) →
      ∃ (pre : List Int) (t : Int) (post : List Int) (d : Int),
        ts = pre ++ t :: post ∧
        Live (runTicks inc pre) ∧
        Terminal (runTicks inc (pre ++ [t])) ∧
        (d = GAME_CONFIG.points.onTime ∨ d = GAME_CONFIG.points.slowPenalty ∨
          d = GAME_CONFIG.points.missedPenalty) ∧
        tickScores inc ts = List.replicate pre.length 0 ++ d :: List.replicate post.length 0 ∧
        (tickScores inc ts).sum = d) := by
  induction ts generalizing inc with
  | nil =>
    refine ⟨fun _ => ⟨rfl, rfl⟩, fun ht => ?_⟩
    exact absurd ht (not_terminal_of_live inc h)
  | cons t ts ih =>
    rcases update_live_cases t inc h with ⟨hl, h0⟩ | ⟨hterm, hd⟩
    · obtain ⟨ih1, ih2⟩ := ih (updateIncidentProgress t inc).1 hl
      constructor
      · intro hlive
        obtain ⟨e1, e2⟩ := ih1 hlive
        simp [tickScores, h0, e1, List.replicate_succ]
      · intro hterm
        obtain ⟨pre, t', post, d, e, hpre, hpost, hd, hs, hsum⟩ := ih2 hterm
        refine ⟨t :: pre, t', post, d, by simp [e], hpre, hpost, hd, ?_, ?_⟩
        · simp [tickScores, h0, hs, List.replicate_succ]
        · simp [tickScores, h0, hsum]
    · constructor
      · intro hlive
        have : runTicks inc (t :: ts) = (updateIncidentProgress t inc).1 :=
          runTicks_terminal _ ts hterm
        rw [this] at hlive
        exact absurd hterm (not_terminal_of_live _ hlive)
      · intro _
        refine ⟨[], t, ts, (updateIncidentProgress t inc).2, rfl, h, hterm, ?_, ?_, ?_⟩
        · simpa [GAME_CONFIG] using hd
        · simp [tickScores, tickScores_terminal _ ts hterm]
        · simp [tickScores, tickScores_terminal _ ts hterm]

/-- C2 (exactly-once scoring). For every incident and every sequence of tick times: an
incident that is already done or missed is left alone and every tick scores 0 for it; while
the incident is still open or working after the ticks, every tick scored 0 for it (total
0); and when an open or working incident is done or missed after the ticks, there is exactly
one tick in the sequence, the one on which it became terminal, whose score delta is one of
onTime 120, slowPenalty -80, missedPenalty -150, every other tick scored 0, and the total
equals that one delta. -/
theorem exactly_once_scoring (inc : Incident) (ts : List Int) :
    (Terminal inc →
      runTicks inc ts = inc ∧ tickScores inc ts = List.replicate ts.length 0) ∧
    (Live (runTicks inc ts) →
      tickScores inc ts = List.replicate ts.length 0 ∧ (tickScores inc ts).sum = 0) ∧
    (Live inc → Terminal (runTicks inc ts) →
      ∃ (pre : List Int) (t : Int) (post : List Int) (d : Int),
        ts = pre ++ t :: post ∧
        Live (runTicks inc pre) ∧
        Terminal (runTicks inc (pre ++ [t])) ∧
        (d = GAME_CONFIG.points.onTime ∨ d = GAME_CONFIG.points.slowPenalty ∨
          d = GAME_CONFIG.points.missedPenalty) ∧
        tickScores inc ts = List.replicate pre.length 0 ++ d :: List.replicate post.length 0 ∧
        (tickScores inc ts).sum = d) := by
  refine ⟨fun hterm => ⟨runTicks_terminal inc ts hterm, tickScores_terminal inc ts hterm⟩,
    fun hlive => ?_, fun hl hterm => (scoring_of_live inc ts hl).2 hterm⟩
  rcases live_or_terminal inc with hl | hterm
  · exact (scoring_of_live inc ts hl).1 hlive
  · rw [runTicks_terminal inc ts hterm] at hlive
    exact absurd hterm (not_terminal_of_live inc hlive)

/-- C2, at a concrete input: the working kitchen fire ticked at 8000, 12500 and 13000 scores
0, then 120, then 0. -/
theorem exactly_once_scoring_witness :
    Live kitchenFireWorking ∧
    ∃ (pre : List Int) (t : Int) (post : List Int) (d : Int),
        [8000, 12500, 13000] = pre ++ t :: post ∧
        Live (runTicks kitchenFireWorking pre) ∧
        Terminal (runTicks kitchenFireWorking (pre ++ [t])) ∧
        (d = GAME_CONFIG.points.onTime ∨ d = GAME_CONFIG.points.slowPenalty ∨
          d = GAME_CONFIG.points.missedPenalty) ∧
        tickScores kitchenFireWorking [8000, 12500, 13000] =
          List.replicate pre.length 0 ++ d :: List.replicate post.length 0 ∧
        (tickScores kitchenFireWorking [8000, 12500, 13000]).sum = d := by
  have hl : Live kitchenFireWorking := Or.inr rfl
  refine ⟨hl, (exactly_once_scoring kitchenFireWorking [8000, 12500, 13000]).2.2 hl ?_⟩
  norm_num [runTicks, updateIncidentProgress, kitchenFireWorking, kitchenFire, createIncident,
    GAME_CONFIG, Terminal]

/-! ## Terminal incidents -/

theorem arrival_terminal (incidentId : String) (type : UnitType) (unitId : String) (n : Int)
    (inc : Incident) (h : Terminal inc) :
    arrivalIncident incidentId type unitId n inc = inc := by
  unfold Terminal at h
  rcases h with h | h <;> simp [arrivalIncident, h]

theorem unassign_not_open (incidentId : String) (type : UnitType) (unitId : String)
    (inc : Incident) (h : inc.status ≠ Status.open_) :
    unassignIncident incidentId type unitId inc = inc := by
  simp [unassignIncident, h]

/-- C3 (terminal immutability). An incident whose status is done or missed is returned
unchanged, every field included, by `updateIncidentProgress(t)` for every `t` (with score
delta 0), by the arrival effect of every dispatch, and by `unassignUnit` with any arguments. -/
theorem terminal_immutable (inc : Incident) (h : Terminal inc) :
    (∀ t : Int, updateIncidentProgress t inc = (inc, 0)) ∧
    (∀ (incidentId : String) (type : UnitType) (unitId : String) (n : Int),
      arrivalIncident incidentId type unitId n inc = inc) ∧
    (∀ (incidentId : String) (type : UnitType) (unitId : String),
      unassignIncident incidentId type unitId inc = inc) := by
  refine ⟨fun t => update_terminal t inc h, fun a b c n => arrival_terminal a b c n inc h,
    fun a b c => unassign_not_open a b c inc ?_⟩
  unfold Terminal at h
  rcases h with h | h <;> simp [h]

/-- C3, at a concrete input: the resolved kitchen fire under a late tick, an arrival of
LF-2 addressed to it, and an unassign of LF-1. -/
theorem terminal_immutable_witness :
    Terminal kitchenFireDone ∧
    updateIncidentProgress 99000 kitchenFireDone = (kitchenFireDone, 0) ∧
    arrivalIncident kitchenFireDone.id UnitType.LF "LF-2" 99000 kitchenFireDone
      = kitchenFireDone ∧
    unassignIncident kitchenFireDone.id UnitType.LF "LF-1" kitchenFireDone = kitchenFireDone :=
  ⟨Or.inl rfl,
    (terminal_immutable kitchenFireDone (Or.inl rfl)).1 99000,
    (terminal_immutable kitchenFireDone (Or.inl rfl)).2.1 kitchenFireDone.id UnitType.LF
      "LF-2" 99000,
    (terminal_immutable kitchenFireDone (Or.inl rfl)).2.2 kitchenFireDone.id UnitType.LF "LF-1"⟩

/-! ## Escalation of open incidents -/

/-- C6 (escalation). For an open incident: a tick after the deadline returns it with status
missed and scores missedPenalty (-150), after which any further ticks leave it and the score
unchanged, so the ticks together score -150; a tick not after the deadline only sets
`lastUpdate` to the tick time and scores 0. -/
theorem open_incident_escalation (inc : Incident) (t : Int) (h : inc.status = Status.open_) :
    (t > inc.deadline →
      updateIncidentProgress t inc =
        ({ inc with status := Status.missed, message := "Einsatz eskaliert (zu spät begonnen)." },
          GAME_CONFIG.points.missedPenalty) ∧
      ∀ ts : List Int,
        runTicks inc (t :: ts) = (updateIncidentProgress t inc).1 ∧
        tickScores inc (t :: ts) =
          GAME_CONFIG.points.missedPenalty :: List.replicate ts.length 0 ∧
        (tickScores inc (t :: ts)).sum = GAME_CONFIG.points.missedPenalty) ∧
    (t ≤ inc.deadline → updateIncidentProgress t inc = ({ inc with lastUpdate := t }, 0)) := by
  constructor
  · intro ht
    have e := update_open_late t inc h ht
    have hterm : Terminal (updateIncidentProgress t inc).1 := by
      rw [e]; exact Or.inr rfl
    refine ⟨e, fun ts => ⟨runTicks_terminal _ ts hterm, ?_, ?_⟩⟩
    · simp only [tickScores, tickScores_terminal _ ts hterm]
      rw [e]; rfl
    · simp only [tickScores, tickScores_terminal _ ts hterm]
      rw [e]; simp [GAME_CONFIG]
  · intro ht
    exact update_open_early t inc h ht

/-- C6, at a concrete input: the open kitchen fire (deadline 19000) ticked at 19001 and then
at 19017 and 25000. -/
theorem open_incident_escalation_witness :
    kitchenFire.status = Status.open_ ∧
    (updateIncidentProgress 19001 kitchenFire).1.status = Status.missed ∧
    tickScores kitchenFire [19001, 19017, 25000] = [-150, 0, 0] := by
  have hd : (19001 : Int) > kitchenFire.deadline := by
    norm_num [kitchenFire, createIncident, GAME_CONFIG]
  have e := (open_incident_escalation kitchenFire 19001 rfl).1 hd
  refine ⟨rfl, ?_, ?_⟩
  · rw [e.1]
  · exact (e.2 [19017, 25000]).2.1

/-! ## Working incidents -/

theorem arrival_working (incidentId : String) (type : UnitType) (unitId : String) (n : Int)
    (inc : Incident) (h : inc.status = Status.working) :
    (arrivalIncident incidentId type unitId n inc).status = Status.working := by
  unfold arrivalIncident
  by_cases hid : inc.id = incidentId <;> simp [hid, h]

theorem update_working_status (t : Int) (inc : Incident) (h : inc.status = Status.working) :
    ((updateIncidentProgress t inc).1.status = Status.working ∧
      (updateIncidentProgress t inc).2 = 0) ∨
    ((updateIncidentProgress t inc).1.status = Status.done ∧
      ((updateIncidentProgress t inc).2 = 120 ∨ (updateIncidentProgress t inc).2 = -80)) := by
  by_cases hp : 1 ≤ newProgress t inc
  · right
    rw [update_working_finished t inc h hp]
    refine ⟨rfl, ?_⟩
    by_cases hd : t ≤ inc.deadline <;> simp [hd]
  · left
    rw [update_working_unfinished t inc h (not_le.mp hp)]
    exact ⟨h, rfl⟩

theorem applyEvent_working_or_done (inc : Incident) (e : IncidentEvent)
    (h : inc.status = Status.working ∨ inc.status = Status.done) :
    (applyEvent inc e).status = Status.working ∨ (applyEvent inc e).status = Status.done := by
  rcases h with h | h
  · cases e with
    | tick t =>
      rcases update_working_status t inc h with ⟨h1, _⟩ | ⟨h1, _⟩
      · exact Or.inl h1
      · exact Or.inr h1
    | arrival a b c n => exact Or.inl (arrival_working a b c n inc h)
    | unassign a b c =>
      left
      show (unassignIncident a b c inc).status = _
      rw [unassign_not_open a b c inc (by simp [h])]
      exact h
  · have hterm : Terminal inc := Or.inl h
    cases e with
    | tick t =>
      right
      show (updateIncidentProgress t inc).1.status = _
      rw [update_terminal t inc hterm]; exact h
    | arrival a b c n =>
      right
      show (arrivalIncident a b c n inc).status = _
      rw [arrival_terminal a b c n inc hterm]; exact h
    | unassign a b c =>
      right
      show (unassignIncident a b c inc).status = _
      rw [unassign_not_open a b c inc (by simp [h])]
      exact h

theorem applyEvents_working_or_done (inc : Incident) (evs : List IncidentEvent)
    (h : inc.status = Status.working ∨ inc.status = Status.done) :
    (applyEvents inc evs).status = Status.working ∨
      (applyEvents inc evs).status = Status.done := by
  induction evs generalizing inc with
  | nil => exact h
  | cons e es ih => exact ih (applyEvent inc e) (applyEvent_working_or_done inc e h)

/-- C7 (no escalation from in-progress). For a working incident, `updateIncidentProgress(t)`
returns status working or done for every `t`, its score delta is 0, onTime or slowPenalty
and never missedPenalty; and after any sequence of ticks, arrival effects and unassign
calls the status is working or done, so never missed. -/
theorem no_escalation_from_working (inc : Incident) (h : inc.status = Status.working) :
    (∀ t : Int,
      ((updateIncidentProgress t inc).1.status = Status.working ∨
        (updateIncidentProgress t inc).1.status = Status.done) ∧
      (updateIncidentProgress t inc).1.status ≠ Status.missed ∧
      ((updateIncidentProgress t inc).2 = 0 ∨
        (updateIncidentProgress t inc).2 = GAME_CONFIG.points.onTime ∨
        (updateIncidentProgress t inc).2 = GAME_CONFIG.points.slowPenalty) ∧
      (updateIncidentProgress t inc).2 ≠ GAME_CONFIG.points.missedPenalty) ∧
    (∀ evs : List IncidentEvent,
      ((applyEvents inc evs).status = Status.working ∨
        (applyEvents inc evs).status = Status.done) ∧
      (applyEvents inc evs).status ≠ Status.missed) := by
  constructor
  · intro t
    rcases update_working_status t inc h with ⟨h1, h2⟩ | ⟨h1, h2⟩
    · simp [h1, h2, GAME_CONFIG]
    · rcases h2 with h2 | h2 <;> simp [h1, h2, GAME_CONFIG]
  · intro evs
    rcases applyEvents_working_or_done inc evs (Or.inl h) with h1 | h1 <;> simp [h1]

/-- C7, at a concrete input: the working kitchen fire (deadline 19000) ticked at 30000, long
after its deadline, and run through a late tick, an arrival and an unassign. -/
theorem no_escalation_from_working_witness :
    kitchenFireWorking.status = Status.working ∧
    (updateIncidentProgress 30000 kitchenFireWorking).1.status ≠ Status.missed ∧
    (applyEvents kitchenFireWorking
      [IncidentEvent.tick 19500,
       IncidentEvent.arrival kitchenFireWorking.id UnitType.LF "LF-2" 19600,
       IncidentEvent.unassign kitchenFireWorking.id UnitType.LF "LF-1",
       IncidentEvent.tick 30000]).status ≠ Status.missed :=
  ⟨rfl, ((no_escalation_from_working kitchenFireWorking rfl).1 30000).2.1,
    ((no_escalation_from_working kitchenFireWorking rfl).2 _).2⟩

/-! ## Progress accrual -/

/-- C8 (progress accrual and completion), as the code computes it. For a working incident a
tick at `t` sets `progress` to `min(1, progress + dt / baseResolveMs)` where `dt` is
`t - lastUpdate` when `lastUpdate` is not 0 and 0 when `lastUpdate` is 0 (the guard
`lastUpdate || t`), and sets `lastUpdate` to `t`; if the new progress is 1 the status becomes
done and the score delta is onTime (120) when `t <= deadline` and slowPenalty (-80)
otherwise; if it is below 1 the status stays working and the score delta is 0. -/
theorem progress_accrual (inc : Incident) (t : Int) (h : inc.status = Status.working) :
    (updateIncidentProgress t inc).1.progress =
      min 1 (inc.progress +
        (((if inc.lastUpdate = 0 then 0 else t - inc.lastUpdate : Int) : ℚ)
          / (GAME_CONFIG.baseResolveMs : ℚ))) ∧
    (updateIncidentProgress t inc).1.lastUpdate = t ∧
    ((updateIncidentProgress t inc).1.progress = 1 →
      (updateIncidentProgress t inc).1.status = Status.done ∧
      (updateIncidentProgress t inc).2 =
        if t ≤ inc.deadline then GAME_CONFIG.points.onTime
        else GAME_CONFIG.points.slowPenalty) ∧
    ((updateIncidentProgress t inc).1.progress < 1 →
      (updateIncidentProgress t inc).1.status = Status.working ∧
      (updateIncidentProgress t inc).2 = 0) := by
  have hnew : newProgress t inc =
      min 1 (inc.progress +
        (((if inc.lastUpdate = 0 then 0 else t - inc.lastUpdate : Int) : ℚ)
          / (GAME_CONFIG.baseResolveMs : ℚ))) := by
    unfold newProgress elapsed
    by_cases h0 : inc.lastUpdate = 0 <;> simp [h0]
  by_cases hp : 1 ≤ newProgress t inc
  · have e := update_working_finished t inc h hp
    have h1 : newProgress t inc = 1 := le_antisymm (newProgress_le_one t inc) hp
    rw [e]
    refine ⟨hnew, rfl, fun _ => ⟨rfl, ?_⟩, fun hlt => ?_⟩
    · by_cases hd : t ≤ inc.deadline <;> simp [hd, GAME_CONFIG]
    · exact absurd hlt (by simp [h1])
  · have e := update_working_unfinished t inc h (not_le.mp hp)
    rw [e]
    refine ⟨hnew, rfl, fun h1 => ?_, fun _ => ⟨h, rfl⟩⟩
    exact absurd (le_of_eq h1.symm) hp

/-- C8, at a concrete input: the kitchen fire at work since 4500 ticked at 8000 (progress
7/16, still working) and at 12500 (progress 1, done in time). -/
theorem progress_accrual_witness :
    kitchenFireWorking.status = Status.working ∧
    (updateIncidentProgress 8000 kitchenFireWorking).1.progress = 7 / 16 ∧
    (updateIncidentProgress 8000 kitchenFireWorking).1.status = Status.working ∧
    (updateIncidentProgress 12500 kitchenFireWorking).1.status = Status.done ∧
    (updateIncidentProgress 12500 kitchenFireWorking).2 = 120 := by
  have a := progress_accrual kitchenFireWorking 8000 rfl
  have b := progress_accrual kitchenFireWorking 12500 rfl
  have pa : (updateIncidentProgress 8000 kitchenFireWorking).1.progress = 7 / 16 := by
    rw [a.1]
    norm_num [kitchenFireWorking, kitchenFire, createIncident, GAME_CONFIG]
  have pb : (updateIncidentProgress 12500 kitchenFireWorking).1.progress = 1 := by
    rw [b.1]
    norm_num [kitchenFireWorking, kitchenFire, createIncident, GAME_CONFIG]
  refine ⟨rfl, pa, (a.2.2.2 (by rw [pa]; norm_num)).1, (b.2.2.1 pb).1, ?_⟩
  rw [(b.2.2.1 pb).2]
  norm_num [kitchenFireWorking, kitchenFire, createIncident, GAME_CONFIG]

/-- C8 as stated fails: for the working incident with `lastUpdate = 0` and progress 0, a tick
at 8000 leaves progress 0 and status working, while `min(1, progress + (t - lastUpdate) /
baseResolveMs)` is 1. -/
theorem progress_accrual_counterexample :
    zeroStamp.status = Status.working ∧
    (updateIncidentProgress 8000 zeroStamp).1.progress = 0 ∧
    (updateIncidentProgress 8000 zeroStamp).1.status = Status.working ∧
    min (1 : ℚ) (zeroStamp.progress +
      (((8000 - zeroStamp.lastUpdate : Int) : ℚ) / (GAME_CONFIG.baseResolveMs : ℚ))) = 1 ∧
    (updateIncidentProgress 8000 zeroStamp).1.progress ≠
      min (1 : ℚ) (zeroStamp.progress +
        (((8000 - zeroStamp.lastUpdate : Int) : ℚ) / (GAME_CONFIG.baseResolveMs : ℚ))) := by
  norm_num [updateIncidentProgress, zeroStamp, kitchenFireWorking, kitchenFire, createIncident,
    GAME_CONFIG]

/-! ## Progress bounds -/

/-- A tick whose time is not before `lastUpdate` keeps progress in [0,1], does not lower it,
and leaves `lastUpdate` not after the tick time. -/
theorem update_progress_bounds (inc : Incident) (t : Int)
    (h0 : 0 ≤ inc.progress) (h1 : inc.progress ≤ 1) (hl : inc.lastUpdate ≤ t) :
    0 ≤ (updateIncidentProgress t inc).1.progress ∧
    (updateIncidentProgress t inc).1.progress ≤ 1 ∧
    inc.progress ≤ (updateIncidentProgress t inc).1.progress ∧
    (updateIncidentProgress t inc).1.lastUpdate ≤ t := by
  rcases live_or_terminal inc with hlive | hterm
  · rcases hlive with ho | hw
    · by_cases ht : t > inc.deadline
      · rw [update_open_late t inc ho ht]
        exact ⟨h0, h1, le_refl _, hl⟩
      · rw [update_open_early t inc ho (not_lt.mp ht)]
        exact ⟨h0, h1, le_refl _, le_refl _⟩
    · have hel : (0 : ℚ) ≤ (elapsed t inc : ℚ) / (GAME_CONFIG.baseResolveMs : ℚ) := by
        have : (0 : Int) ≤ elapsed t inc := by
          unfold elapsed
          by_cases hz : inc.lastUpdate = 0
          · simp [hz]
          · simp [hz, hl]
        have h2 : (0 : ℚ) ≤ (elapsed t inc : ℚ) := by exact_mod_cast this
        have h3 : (0 : ℚ) ≤ (GAME_CONFIG.baseResolveMs : ℚ) := by norm_num [GAME_CONFIG]
        exact div_nonneg h2 h3
      have hge : inc.progress ≤ newProgress t inc := by
        unfold newProgress
        exact le_min h1 (by linarith)
      have hle := newProgress_le_one t inc
      by_cases hp : 1 ≤ newProgress t inc
      · rw [update_working_finished t inc hw hp]
        exact ⟨le_trans h0 hge, hle, hge, le_refl _⟩
      · rw [update_working_unfinished t inc hw (not_le.mp hp)]
        exact ⟨le_trans h0 hge, hle, hge, le_refl _⟩
  · rw [update_terminal t inc hterm]
    exact ⟨h0, h1, le_refl _, hl⟩

theorem arrival_progress (incidentId : String) (type : UnitType) (unitId : String) (n : Int)
    (inc : Incident) :
    (arrivalIncident incidentId type unitId n inc).progress = inc.progress ∧
    ((arrivalIncident incidentId type unitId n inc).lastUpdate = inc.lastUpdate ∨
      (arrivalIncident incidentId type unitId n inc).lastUpdate = n) := by
  simp only [arrivalIncident]
  split_ifs <;> simp

theorem unassign_progress (incidentId : String) (type : UnitType) (unitId : String)
    (inc : Incident) :
    (unassignIncident incidentId type unitId inc).progress = inc.progress ∧
    (unassignIncident incidentId type unitId inc).lastUpdate = inc.lastUpdate := by
  unfold unassignIncident
  split_ifs <;> simp

theorem applyEvents_progress_bounds (evs : List IncidentEvent) :
    ∀ (inc : Incident) (start : Int), 0 ≤ inc.progress → inc.progress ≤ 1 →
      inc.lastUpdate ≤ start → ReadingsOrdered start evs →
      0 ≤ (applyEvents inc evs).progress ∧ (applyEvents inc evs).progress ≤ 1 ∧
      inc.progress ≤ (applyEvents inc evs).progress := by
  induction evs with
  | nil => intro inc start h0 h1 _ _; exact ⟨h0, h1, le_refl _⟩
  | cons e es ih =>
    intro inc start h0 h1 hl hm
    cases e with
    | tick t =>
      obtain ⟨hst, hm2⟩ : start ≤ t ∧ ReadingsOrdered t es := hm
      obtain ⟨a, b, c, d⟩ := update_progress_bounds inc t h0 h1 (le_trans hl hst)
      obtain ⟨r1, r2, r3⟩ := ih (updateIncidentProgress t inc).1 t a b d hm2
      exact ⟨r1, r2, le_trans c r3⟩
    | arrival x y z n =>
      obtain ⟨hst, hm2⟩ : start ≤ n ∧ ReadingsOrdered n es := hm
      obtain ⟨p, q⟩ := arrival_progress x y z n inc
      have hl2 : (arrivalIncident x y z n inc).lastUpdate ≤ n := by
        rcases q with q | q
        · rw [q]; exact le_trans hl hst
        · rw [q]
      obtain ⟨r1, r2, r3⟩ := ih (arrivalIncident x y z n inc) n (by rw [p]; exact h0)
        (by rw [p]; exact h1) hl2 hm2
      exact ⟨r1, r2, by rw [p] at r3; exact r3⟩
    | unassign x y z =>
      have hm2 : ReadingsOrdered start es := hm
      obtain ⟨p, q⟩ := unassign_progress x y z inc
      obtain ⟨r1, r2, r3⟩ := ih (unassignIncident x y z inc) start (by rw [p]; exact h0)
        (by rw [p]; exact h1) (by rw [q]; exact hl) hm2
      exact ⟨r1, r2, by rw [p] at r3; exact r3⟩

/-- C5 (progress bounds), for clock readings that do not run backwards. For an incident with
progress in [0,1]: a tick at a time `t` not before its `lastUpdate` returns progress in
[0,1] and not smaller than before; and after any sequence of ticks, arrival effects and
unassign calls whose clock readings, in the order in which the updates are applied, are
non-decreasing and not before `lastUpdate`, progress is in [0,1] and not smaller than at
the start. -/
theorem progress_bounds (inc : Incident) (h0 : 0 ≤ inc.progress) (h1 : inc.progress ≤ 1) :
    (∀ t : Int, inc.lastUpdate ≤ t →
      0 ≤ (updateIncidentProgress t inc).1.progress ∧
      (updateIncidentProgress t inc).1.progress ≤ 1 ∧
      inc.progress ≤ (updateIncidentProgress t inc).1.progress) ∧
    (∀ (evs : List IncidentEvent) (start : Int), inc.lastUpdate ≤ start → ReadingsOrdered start evs →
      0 ≤ (applyEvents inc evs).progress ∧ (applyEvents inc evs).progress ≤ 1 ∧
      inc.progress ≤ (applyEvents inc evs).progress) := by
  constructor
  · intro t hl
    obtain ⟨a, b, c, _⟩ := update_progress_bounds inc t h0 h1 hl
    exact ⟨a, b, c⟩
  · intro evs start hl hm
    exact applyEvents_progress_bounds evs inc start h0 h1 hl hm

/-- C5, at a concrete input: the open kitchen fire (created at 1000) through the arrivals of
LF-1 and RTW-1 at 4500 and ticks at 4516, 8000 and 13000. -/
theorem progress_bounds_witness :
    (0 : ℚ) ≤ kitchenFire.progress ∧ kitchenFire.progress ≤ 1 ∧
    0 ≤ (applyEvents kitchenFire
      [IncidentEvent.arrival kitchenFire.id UnitType.LF "LF-1" 4500,
       IncidentEvent.arrival kitchenFire.id UnitType.RTW "RTW-1" 4500,
       IncidentEvent.tick 4516, IncidentEvent.tick 8000, IncidentEvent.tick 13000]).progress ∧
    (applyEvents kitchenFire
      [IncidentEvent.arrival kitchenFire.id UnitType.LF "LF-1" 4500,
       IncidentEvent.arrival kitchenFire.id UnitType.RTW "RTW-1" 4500,
       IncidentEvent.tick 4516, IncidentEvent.tick 8000, IncidentEvent.tick 13000]).progress
      ≤ 1 := by
  have h0 : (0 : ℚ) ≤ kitchenFire.progress := by
    simp [kitchenFire, createIncident]
  have h1 : kitchenFire.progress ≤ 1 := by
    simp [kitchenFire, createIncident]
  have hl : kitchenFire.lastUpdate ≤ 1000 := by
    simp [kitchenFire, createIncident]
  have r := (progress_bounds kitchenFire h0 h1).2
    [IncidentEvent.arrival kitchenFire.id UnitType.LF "LF-1" 4500,
     IncidentEvent.arrival kitchenFire.id UnitType.RTW "RTW-1" 4500,
     IncidentEvent.tick 4516, IncidentEvent.tick 8000, IncidentEvent.tick 13000] 1000 hl
    (by simp [ReadingsOrdered, IncidentEvent.reading])
  exact ⟨h0, h1, r.1, r.2.1⟩

/-- C5 as stated fails: the kitchen fire gets to work through arrivals whose updater reads
the clock at 4500; a tick whose own reading was 4499 and whose update is applied afterwards
takes progress from 0 to -1/8000, below 0 and below its previous value. -/
theorem progress_bounds_counterexample :
    (applyEvents kitchenFire
      [IncidentEvent.arrival kitchenFire.id UnitType.LF "LF-1" 4500,
       IncidentEvent.arrival kitchenFire.id UnitType.RTW "RTW-1" 4500]) = kitchenFireWorking ∧
    kitchenFireWorking.progress = 0 ∧
    (updateIncidentProgress 4499 kitchenFireWorking).1.progress = -1 / 8000 ∧
    (updateIncidentProgress 4499 kitchenFireWorking).1.progress < 0 ∧
    (updateIncidentProgress 4499 kitchenFireWorking).1.progress < kitchenFireWorking.progress := by
  refine ⟨?_, ?_, ?_, ?_, ?_⟩
  · simp [applyEvents, applyEvent, arrivalIncident, kitchenFire, kitchenFireWorking,
      createIncident, requirementsMet, getAssigned, setAssigned, templateAt,
      INCIDENT_TEMPLATES, GAME_CONFIG, UnitType.key]
  all_goals
    norm_num [updateIncidentProgress, kitchenFireWorking, kitchenFire, createIncident,
      GAME_CONFIG]

/-! ## The unit pool: release and dispatch -/

theorem releaseUnit_id (t : Int) (u : PoolUnit) : (releaseUnit t u).id = u.id := by
  unfold releaseUnit; split_ifs <;> rfl

theorem releasePool_ids (t : Int) (p : List PoolUnit) :
    (releasePool t p).map (fun u => u.id) = p.map (fun u => u.id) := by
  simp [releasePool, List.map_map, Function.comp_def, releaseUnit_id]

/-- C17 (release of expired commitments). For every pool and tick time `t` the release step
keeps the length of the roster and the id and type at every position; a unit that is busy
with `busyUntil <= t` becomes ready with `busyUntil = 0` and no task, and every other unit
(ready, or busy with `busyUntil > t`) is unchanged. -/
theorem release_expired (p : List PoolUnit) (t : Int) :
    (releasePool t p).length = p.length ∧
    (releasePool t p).map (fun u => u.id) = p.map (fun u => u.id) ∧
    (releasePool t p).map (fun u => u.type) = p.map (fun u => u.type) ∧
    (∀ (i : Nat) (u : PoolUnit), p[i]? = some u →
      (releasePool t p)[i]? =
        some (if u.status = UnitStatus.busy ∧ u.busyUntil ≤ t then
            { u with status := UnitStatus.ready, busyUntil := 0, task := none }
          else u)) := by
  have hid : ∀ u : PoolUnit, (releaseUnit t u).id = u.id := by
    intro u; unfold releaseUnit; split_ifs <;> rfl
  have hty : ∀ u : PoolUnit, (releaseUnit t u).type = u.type := by
    intro u; unfold releaseUnit; split_ifs <;> rfl
  refine ⟨by simp [releasePool], ?_, ?_, ?_⟩
  · simp [releasePool, List.map_map, Function.comp_def, hid]
  · simp [releasePool, List.map_map, Function.comp_def, hty]
  · intro i u hu
    simp only [releasePool, List.getElem?_map, hu, Option.map_some']
    congr 1
    unfold releaseUnit
    by_cases hb : u.status = UnitStatus.busy
    · by_cases ht : u.busyUntil ≤ t
      · simp [hb, ht]
      · simp [hb, ht]
    · simp [hb]

theorem findIndex_none (p : PoolUnit → Bool) (l : List PoolUnit)
    (h : ∀ u ∈ l, p u = false) : findIndex p l = none := by
  induction l with
  | nil => rfl
  | cons x xs ih =>
    have hx : p x = false := h x (List.mem_cons_self _ _)
    have hxs := ih (fun u hu => h u (List.mem_cons_of_mem _ hu))
    simp [findIndex, hx, hxs]

theorem findIndex_first (p : PoolUnit → Bool) (pre : List PoolUnit) (x : PoolUnit)
    (post : List PoolUnit) (h : ∀ u ∈ pre, p u = false) (hx : p x = true) :
    findIndex p (pre ++ x :: post) = some pre.length := by
  induction pre with
  | nil => simp [findIndex, hx]
  | cons y ys ih =>
    have hy : p y = false := h y (List.mem_cons_self _ _)
    have hys := ih (fun u hu => h u (List.mem_cons_of_mem _ hu))
    simp [findIndex, hy, hys]

theorem getElem?_middle (pre : List PoolUnit) (x : PoolUnit) (post : List PoolUnit) :
    (pre ++ x :: post)[pre.length]? = some x := by
  induction pre with
  | nil => simp
  | cons y ys ih => simpa using ih

theorem set_middle (pre : List PoolUnit) (x y : PoolUnit) (post : List PoolUnit) :
    (pre ++ x :: post).set pre.length y = pre ++ y :: post := by
  induction pre with
  | nil => simp [List.set]
  | cons z zs ih => simp [List.set, ih]

theorem assignUnit_none (incidentId : String) (type : UnitType) (t : Int) (g : Game)
    (h : ∀ u ∈ g.pool, ¬ (u.type = type ∧ u.status = UnitStatus.ready)) :
    assignUnit incidentId type t g = g := by
  have : findIndex (isReadyOfType type) g.pool = none := by
    apply findIndex_none
    intro u hu
    have := h u hu
    simp only [isReadyOfType]
    by_cases h1 : u.type = type
    · by_cases h2 : u.status = UnitStatus.ready
      · exact absurd ⟨h1, h2⟩ this
      · simp [h2]
    · simp [h1]
  simp [assignUnit, this]

theorem assignUnit_first (incidentId : String) (type : UnitType) (t : Int) (g : Game)
    (pre : List PoolUnit) (unit : PoolUnit) (post : List PoolUnit)
    (hpool : g.pool = pre ++ unit :: post)
    (hpre : ∀ u ∈ pre, ¬ (u.type = type ∧ u.status = UnitStatus.ready))
    (hty : unit.type = type) (hst : unit.status = UnitStatus.ready) :
    assignUnit incidentId type t g =
      { g with
          pool := pre ++
            { unit with
                status := UnitStatus.busy
                busyUntil := t + GAME_CONFIG.travelMs
                task := some { incidentId := incidentId, phase := Phase.toScene } } :: post
          timers := g.timers ++
            [{ incidentId := incidentId, type := type, unitId := unit.id,
               due := t + GAME_CONFIG.travelMs }]
          score := g.score + GAME_CONFIG.points.assign } := by
  have hfi : findIndex (isReadyOfType type) g.pool = some pre.length := by
    rw [hpool]
    apply findIndex_first
    · intro u hu
      have := hpre u hu
      simp only [isReadyOfType]
      by_cases h1 : u.type = type
      · by_cases h2 : u.status = UnitStatus.ready
        · exact absurd ⟨h1, h2⟩ this
        · simp [h2]
      · simp [h1]
    · simp [isReadyOfType, hty, hst]
  have hget : g.pool[pre.length]? = some unit := by
    rw [hpool]; exact getElem?_middle pre unit post
  have hset : ∀ y, g.pool.set pre.length y = pre ++ y :: post := by
    intro y; rw [hpool]; exact set_middle pre unit y post
  simp only [assignUnit, hfi, hget, hset]

theorem assignUnit_incidents (incidentId : String) (type : UnitType) (t : Int) (g : Game) :
    (assignUnit incidentId type t g).incidents = g.incidents := by
  unfold assignUnit
  split
  · rfl
  · split <;> rfl

/-- C12 (assign postcondition). For every state, incident id, type and time `t`: the
incident list is not changed by `assignUnit`; if no unit of the type is ready the whole state
(pool and score included) is unchanged; otherwise, with `unit` the first ready unit of the
type in roster order (`pre` before it holds no ready unit of the type), the pool afterwards is
the same roster with exactly that unit set to busy, `busyUntil = t + travelMs` and task
`{incidentId, phase "to-scene"}`, and the score is higher by exactly `assign`. -/
theorem assign_postcondition (incidentId : String) (type : UnitType) (t : Int) (g : Game) :
    (assignUnit incidentId type t g).incidents = g.incidents ∧
    ((∀ u ∈ g.pool, ¬ (u.type = type ∧ u.status = UnitStatus.ready)) →
      (assignUnit incidentId type t g).pool = g.pool ∧
      (assignUnit incidentId type t g).score = g.score) ∧
    (∀ (pre : List PoolUnit) (unit : PoolUnit) (post : List PoolUnit),
      g.pool = pre ++ unit :: post →
      (∀ u ∈ pre, ¬ (u.type = type ∧ u.status = UnitStatus.ready)) →
      unit.type = type → unit.status = UnitStatus.ready →
      (assignUnit incidentId type t g).pool =
        pre ++
          { unit with
              status := UnitStatus.busy
              busyUntil := t + GAME_CONFIG.travelMs
              task := some { incidentId := incidentId, phase := Phase.toScene } } :: post ∧
      (assignUnit incidentId type t g).score = g.score + GAME_CONFIG.points.assign) := by
  refine ⟨?_, ?_, ?_⟩
  · exact assignUnit_incidents incidentId type t g
  · intro h
    rw [assignUnit_none incidentId type t g h]
    exact ⟨rfl, rfl⟩
  · intro pre unit post hpool hpre hty hst
    rw [assignUnit_first incidentId type t g pre unit post hpool hpre hty hst]
    exact ⟨rfl, rfl⟩

theorem map_arrival_terminal (incidentId : String) (type : UnitType) (unitId : String)
    (n : Int) (l : List Incident) (h : ∀ inc ∈ l, inc.id = incidentId → Terminal inc) :
    l.map (arrivalIncident incidentId type unitId n) = l := by
  induction l with
  | nil => rfl
  | cons x xs ih =>
    have hx : arrivalIncident incidentId type unitId n x = x := by
      by_cases hid : x.id = incidentId
      · exact arrival_terminal _ _ _ _ x (h x (List.mem_cons_self _ _) hid)
      · simp [arrivalIncident, hid]
    simp only [List.map_cons, hx]
    rw [ih (fun inc hinc => h inc (List.mem_cons_of_mem _ hinc))]

/-- C4 (assign to a missing or terminal incident), as the code behaves. `assignUnit` never
looks at the incident list: when `incidentId` names no incident or only done/missed ones,
the incident list stays unchanged, and the state stays unchanged altogether only if no unit
of the type is ready; if one is ready, the first such unit is reserved (busy until
`t + travelMs`) and the assign points are added all the same, and the arrival effect that
fires later changes no incident. -/
theorem assign_missing_or_terminal (incidentId : String) (type : UnitType) (t : Int)
    (g : Game) (h : ∀ inc ∈ g.incidents, inc.id = incidentId → Terminal inc) :
    (assignUnit incidentId type t g).incidents = g.incidents ∧
    ((∀ u ∈ g.pool, ¬ (u.type = type ∧ u.status = UnitStatus.ready)) →
      assignUnit incidentId type t g = g) ∧
    (∀ (pre : List PoolUnit) (unit : PoolUnit) (post : List PoolUnit),
      g.pool = pre ++ unit :: post →
      (∀ u ∈ pre, ¬ (u.type = type ∧ u.status = UnitStatus.ready)) →
      unit.type = type → unit.status = UnitStatus.ready →
      (assignUnit incidentId type t g).pool =
        pre ++
          { unit with
              status := UnitStatus.busy
              busyUntil := t + GAME_CONFIG.travelMs
              task := some { incidentId := incidentId, phase := Phase.toScene } } :: post ∧
      (assignUnit incidentId type t g).score = g.score + GAME_CONFIG.points.assign ∧
      ∀ n : Int,
        (assignUnit incidentId type t g).incidents.map
          (arrivalIncident incidentId type unit.id n) = g.incidents) := by
  refine ⟨?_, fun hn => assignUnit_none incidentId type t g hn, ?_⟩
  · exact assignUnit_incidents incidentId type t g
  · intro pre unit post hpool hpre hty hst
    rw [assignUnit_first incidentId type t g pre unit post hpool hpre hty hst]
    exact ⟨rfl, rfl, fun n => map_arrival_terminal incidentId type unit.id n g.incidents h⟩

/-- C4 amended, at a concrete input: LF assigned at 21000 to the resolved kitchen fire. -/
theorem assign_missing_or_terminal_witness :
    (assignUnit kitchenFireDone.id UnitType.LF 21000 doneGame).incidents = doneGame.incidents ∧
    ((assignUnit kitchenFireDone.id UnitType.LF 21000 doneGame).pool.map
        (fun u => (u.id, u.status, u.busyUntil))).take 2 =
      [("LF-1", UnitStatus.busy, 24500), ("LF-2", UnitStatus.ready, 0)] ∧
    (assignUnit kitchenFireDone.id UnitType.LF 21000 doneGame).score = doneGame.score + 5 := by
  have hterm : ∀ inc ∈ doneGame.incidents, inc.id = kitchenFireDone.id → Terminal inc := by
    intro inc hinc _
    have : inc = kitchenFireDone := by simpa [doneGame] using hinc
    rw [this]; exact Or.inl rfl
  have r := (assign_missing_or_terminal kitchenFireDone.id UnitType.LF 21000 doneGame hterm).2.2
    [] (initialPool.get ⟨0, by decide⟩) (initialPool.drop 1) rfl (by simp) rfl rfl
  refine ⟨(assign_missing_or_terminal kitchenFireDone.id UnitType.LF 21000 doneGame hterm).1,
    ?_, r.2.1⟩
  rw [r.1]
  decide

/-- C4 as stated fails: with an empty incident list (so the id names no incident), and with
the kitchen fire already done, `assignUnit` still reserves LF-1 and adds 5 points. -/
theorem assign_missing_or_terminal_counterexample :
    initialGame.incidents = [] ∧
    (assignUnit "einsatz-k3x9qa" UnitType.LF 1000 initialGame).pool ≠ initialGame.pool ∧
    (assignUnit "einsatz-k3x9qa" UnitType.LF 1000 initialGame).score = initialGame.score + 5 ∧
    doneGame.incidents = [kitchenFireDone] ∧ kitchenFireDone.status = Status.done ∧
    (assignUnit kitchenFireDone.id UnitType.LF 21000 doneGame).pool ≠ doneGame.pool ∧
    (assignUnit kitchenFireDone.id UnitType.LF 21000 doneGame).score = doneGame.score + 5 := by
  refine ⟨rfl, by decide, by decide, rfl, rfl, by decide, by decide⟩

/-! ## The `assigned` map -/

theorem getAssigned_setAssigned_same (m : List (UnitType × List String)) (k : UnitType)
    (v : List String) : getAssigned (setAssigned m k v) k = v := by
  induction m with
  | nil => simp [setAssigned, getAssigned]
  | cons p rest ih =>
    obtain ⟨k', w⟩ := p
    by_cases h : k' = k
    · simp [setAssigned, getAssigned, h]
    · simp [setAssigned, getAssigned, h, ih]

theorem getAssigned_setAssigned_other (m : List (UnitType × List String)) (k k' : UnitType)
    (v : List String) (hk : k' ≠ k) :
    getAssigned (setAssigned m k v) k' = getAssigned m k' := by
  induction m with
  | nil => simp [setAssigned, getAssigned, Ne.symm hk]
  | cons p rest ih =>
    obtain ⟨k₀, w⟩ := p
    by_cases h : k₀ = k
    · subst h
      simp [setAssigned, getAssigned, Ne.symm hk]
    · by_cases h2 : k₀ = k'
      · subst h2
        simp [setAssigned, getAssigned, h]
      · simp [setAssigned, getAssigned, h, h2, ih]

/-- The requirements stay met when they are the same and no assigned list gets shorter. -/
theorem requirementsMet_mono (a b : Incident) (hr : b.requirements = a.requirements)
    (hlen : ∀ ty, (getAssigned a.assigned ty).length ≤ (getAssigned b.assigned ty).length)
    (h : requirementsMet a = true) : requirementsMet b = true := by
  unfold requirementsMet at h ⊢
  rw [hr]
  rw [List.all_eq_true] at h ⊢
  intro p hp
  have := h p hp
  simp only [decide_eq_true_eq] at this ⊢
  exact le_trans this (hlen p.1)

/-! ## Arrival effect -/

theorem arrival_other_id (incidentId : String) (type : UnitType) (unitId : String) (n : Int)
    (inc : Incident) (h : inc.id ≠ incidentId) :
    arrivalIncident incidentId type unitId n inc = inc := by
  simp [arrivalIncident, h]

/-- The three shapes of the result of the arrival effect on an incident it attaches to. -/
theorem arrival_live (incidentId : String) (type : UnitType) (unitId : String) (n : Int)
    (inc : Incident) (hid : inc.id = incidentId) (hl : Live inc) :
    arrivalIncident incidentId type unitId n inc =
      (if requirementsMet
            { inc with assigned :=
                setAssigned inc.assigned type (getAssigned inc.assigned type ++ [unitId]) }
            = true ∧ inc.status ≠ Status.working then
        { inc with
            assigned := setAssigned inc.assigned type (getAssigned inc.assigned type ++ [unitId])
            status := Status.working, startedAt := some n, lastUpdate := n
            message := unitId ++ " eingetroffen (" ++ type.key ++ ")." }
      else
        { inc with
            assigned := setAssigned inc.assigned type (getAssigned inc.assigned type ++ [unitId])
            lastUpdate := n
            message := unitId ++ " eingetroffen (" ++ type.key ++ ")." }) := by
  have hg : ¬ (inc.id ≠ incidentId ∨
      (inc.status ≠ Status.open_ ∧ inc.status ≠ Status.working)) := by
    rcases hl with h | h <;> simp [hid, h]
  simp only [arrivalIncident]
  rw [if_neg hg]

/-- What the arrival effect does to an open or working incident with the target id. -/
theorem arrival_facts (incidentId : String) (type : UnitType) (unitId : String) (n : Int)
    (inc : Incident) (hid : inc.id = incidentId) (hl : Live inc) :
    getAssigned (arrivalIncident incidentId type unitId n inc).assigned type =
      getAssigned inc.assigned type ++ [unitId] ∧
    (∀ ty : UnitType, ty ≠ type →
      getAssigned (arrivalIncident incidentId type unitId n inc).assigned ty =
        getAssigned inc.assigned ty) ∧
    (arrivalIncident incidentId type unitId n inc).requirements = inc.requirements ∧
    (inc.status = Status.open_ →
      requirementsMet (arrivalIncident incidentId type unitId n inc) = true →
      (arrivalIncident incidentId type unitId n inc).status = Status.working ∧
      (arrivalIncident incidentId type unitId n inc).startedAt = some n) ∧
    (inc.status = Status.open_ →
      requirementsMet (arrivalIncident incidentId type unitId n inc) = false →
      (arrivalIncident incidentId type unitId n inc).status = Status.open_ ∧
      (arrivalIncident incidentId type unitId n inc).startedAt = inc.startedAt ∧
      (inc.startedAt = none →
        (arrivalIncident incidentId type unitId n inc).startedAt = none)) ∧
    (inc.status = Status.working →
      (arrivalIncident incidentId type unitId n inc).status = Status.working ∧
      (arrivalIncident incidentId type unitId n inc).startedAt = inc.startedAt) := by
  have e := arrival_live incidentId type unitId n inc hid hl
  have hmet : requirementsMet (arrivalIncident incidentId type unitId n inc) =
      requirementsMet
        { inc with assigned :=
            setAssigned inc.assigned type (getAssigned inc.assigned type ++ [unitId]) } := by
    rw [e]; split_ifs <;> rfl
  refine ⟨?_, ?_, ?_, ?_, ?_, ?_⟩
  · rw [e]; split_ifs <;> exact getAssigned_setAssigned_same _ _ _
  · intro ty hty
    rw [e]; split_ifs <;> exact getAssigned_setAssigned_other _ _ _ _ hty
  · rw [e]; split_ifs <;> rfl
  · intro ho hm
    rw [hmet] at hm
    rw [e, if_pos ⟨hm, by simp [ho]⟩]
    exact ⟨rfl, rfl⟩
  · intro ho hm
    rw [hmet] at hm
    rw [e, if_neg (by simp [hm])]
    exact ⟨ho, rfl, fun h => h⟩
  · intro hw
    rw [e, if_neg (by simp [hw])]
    exact ⟨hw, rfl⟩

/-- C13 (arrival attach). When the arrival effect of unit `unitId` of type `type` fires at
time `n` for an incident with the target id whose status is open or working: `unitId` is
appended at the end of `assigned[type]`, the lists of the other types and the requirements
are unchanged; an open incident becomes working with `startedAt = n` exactly when
`requirementsMet` holds for the new assigned map, and otherwise stays open with `startedAt`
as it was (absent); a working incident keeps status and `startedAt`; an incident with
another id is returned unchanged. -/
theorem arrival_attach (incidentId : String) (type : UnitType) (unitId : String) (n : Int)
    (inc : Incident) (hid : inc.id = incidentId) (hl : Live inc) :
    getAssigned (arrivalIncident incidentId type unitId n inc).assigned type =
      getAssigned inc.assigned type ++ [unitId] ∧
    (∀ ty : UnitType, ty ≠ type →
      getAssigned (arrivalIncident incidentId type unitId n inc).assigned ty =
        getAssigned inc.assigned ty) ∧
    (arrivalIncident incidentId type unitId n inc).requirements = inc.requirements ∧
    (inc.status = Status.open_ →
      requirementsMet (arrivalIncident incidentId type unitId n inc) = true →
      (arrivalIncident incidentId type unitId n inc).status = Status.working ∧
      (arrivalIncident incidentId type unitId n inc).startedAt = some n) ∧
    (inc.status = Status.open_ →
      requirementsMet (arrivalIncident incidentId type unitId n inc) = false →
      (arrivalIncident incidentId type unitId n inc).status = Status.open_ ∧
      (arrivalIncident incidentId type unitId n inc).startedAt = inc.startedAt ∧
      (inc.startedAt = none →
        (arrivalIncident incidentId type unitId n inc).startedAt = none)) ∧
    (inc.status = Status.working →
      (arrivalIncident incidentId type unitId n inc).status = Status.working ∧
      (arrivalIncident incidentId type unitId n inc).startedAt = inc.startedAt) ∧
    (∀ other : Incident, other.id ≠ incidentId →
      arrivalIncident incidentId type unitId n other = other) := by
  obtain ⟨h1, h2, h3, h4, h5, h6⟩ := arrival_facts incidentId type unitId n inc hid hl
  refine ⟨h1, h2, h3, h4, h5, h6, ?_⟩
  intro other ho
  exact arrival_other_id incidentId type unitId n other ho

/-- C13, at a concrete input: LF-1 arrives at 4500 at the open kitchen fire (LF 1, RTW 1),
which stays open; then RTW-1 arrives at 4500 and the incident starts work. -/
theorem arrival_attach_witness :
    getAssigned (arrivalIncident kitchenFire.id UnitType.LF "LF-1" 4500 kitchenFire).assigned
      UnitType.LF = ["LF-1"] ∧
    (arrivalIncident kitchenFire.id UnitType.LF "LF-1" 4500 kitchenFire).status
      = Status.open_ ∧
    (arrivalIncident kitchenFire.id UnitType.LF "LF-1" 4500 kitchenFire).startedAt = none ∧
    (arrivalIncident kitchenFire.id UnitType.RTW "RTW-1" 4500
      (arrivalIncident kitchenFire.id UnitType.LF "LF-1" 4500 kitchenFire)).status
      = Status.working ∧
    (arrivalIncident kitchenFire.id UnitType.RTW "RTW-1" 4500
      (arrivalIncident kitchenFire.id UnitType.LF "LF-1" 4500 kitchenFire)).startedAt
      = some 4500 := by
  have a := arrival_attach kitchenFire.id UnitType.LF "LF-1" 4500 kitchenFire rfl (Or.inl rfl)
  have b := arrival_attach kitchenFire.id UnitType.RTW "RTW-1" 4500
    (arrivalIncident kitchenFire.id UnitType.LF "LF-1" 4500 kitchenFire) (by decide)
    (by decide)
  have a5 := a.2.2.2.2.1 rfl (by decide)
  have b4 := b.2.2.2.1 (by decide) (by decide)
  exact ⟨a.1, a5.1, a5.2.2 rfl, b4.1, b4.2⟩

/-- C14 (arrival at a missing or terminal incident), as the code behaves. When the timeout of
a dispatch fires at time `n` and every incident with the target id is done or missed (or
there is none), no incident is modified and the score is unchanged; the unit with the
dispatched id is set busy with `busyUntil = n + baseResolveMs + travelMs` and with the task
`{incidentId, phase "at-scene"}`, which still names the target incident id; every other unit
is unchanged. -/
theorem arrival_missing_or_terminal (g : Game) (k : Nat) (n : Int) (tm : Timer)
    (hk : g.timers[k]? = some tm) (hn : tm.due ≤ n)
    (h : ∀ inc ∈ g.incidents, inc.id = tm.incidentId → Terminal inc) :
    (arrive k n g).incidents = g.incidents ∧
    (arrive k n g).score = g.score ∧
    (∀ (i : Nat) (u : PoolUnit), g.pool[i]? = some u →
      (arrive k n g).pool[i]? =
        some (if u.id = tm.unitId then
            { u with
                status := UnitStatus.busy
                busyUntil := n + (GAME_CONFIG.baseResolveMs + GAME_CONFIG.travelMs)
                task := some { incidentId := tm.incidentId, phase := Phase.atScene } }
          else u)) := by
  have e : arrive k n g =
      { g with
          incidents := g.incidents.map (arrivalIncident tm.incidentId tm.type tm.unitId n)
          pool := arrivalPool tm.incidentId tm.unitId n g.pool
          timers := g.timers.eraseIdx k } := by
    simp only [arrive, hk]
    rw [if_neg (not_lt.mpr hn)]
  rw [e]
  refine ⟨map_arrival_terminal _ _ _ _ _ h, rfl, ?_⟩
  intro i u hu
  simp only [arrivalPool, List.getElem?_map, hu, Option.map_some']

/-- C14 amended, at a concrete input: in the run `lateSecondTruck` the water damage is done
when LF-2 arrives at 19500; the incidents stay as they are and LF-2 is busy until 31000. -/
theorem arrival_missing_or_terminal_witness :
    (run initialGame lateSecondTruck).incidents =
      (run initialGame (lateSecondTruck.take 8)).incidents ∧
    (run initialGame lateSecondTruck).pool[1]? =
      some { id := "LF-2", type := UnitType.LF, status := UnitStatus.busy, busyUntil := 31000,
             task := some { incidentId := "einsatz-w4t3r0", phase := Phase.atScene } } := by
  have hk : (run initialGame (lateSecondTruck.take 8)).timers[0]? =
      some { incidentId := "einsatz-w4t3r0", type := UnitType.LF, unitId := "LF-2",
             due := 19500 } := by decide!
  have hterm : ∀ inc ∈ (run initialGame (lateSecondTruck.take 8)).incidents,
      inc.id = "einsatz-w4t3r0" → Terminal inc := by decide!
  have hu : (run initialGame (lateSecondTruck.take 8)).pool[1]? =
      some { id := "LF-2", type := UnitType.LF, status := UnitStatus.busy, busyUntil := 19500,
             task := some { incidentId := "einsatz-w4t3r0", phase := Phase.toScene } } := by
    decide!
  have r := arrival_missing_or_terminal (run initialGame (lateSecondTruck.take 8)) 0 19500 _
    hk (by decide) hterm
  exact ⟨r.1, r.2.2 1 _ hu⟩

/-- C14 as stated fails: in the run `lateSecondTruck` the target incident is in the list
with status done when LF-2 arrives, and afterwards the task of LF-2 is not empty: it is
`{incidentId, phase "at-scene"}` with the id of that incident. -/
theorem arrival_missing_or_terminal_counterexample :
    ((run initialGame (lateSecondTruck.take 8)).incidents.map (fun i => (i.id, i.status))).head?
      = some ("einsatz-w4t3r0", Status.done) ∧
    (run initialGame (lateSecondTruck.take 8)).timers.map (fun tm => (tm.incidentId, tm.unitId))
      = [("einsatz-w4t3r0", "LF-2")] ∧
    ((run initialGame lateSecondTruck).pool.map (fun u => (u.id, u.task)))[1]? =
      some ("LF-2", some { incidentId := "einsatz-w4t3r0", phase := Phase.atScene }) ∧
    ((run initialGame lateSecondTruck).pool.map (fun u => u.task))[1]? ≠ some none := by
  decide!

/-! ## Unassign -/

theorem unassign_open (incidentId : String) (type : UnitType) (unitId : String)
    (inc : Incident) (hid : inc.id = incidentId) (ho : inc.status = Status.open_) :
    unassignIncident incidentId type unitId inc =
      { inc with
          assigned := setAssigned inc.assigned type
            ((getAssigned inc.assigned type).filter (fun id => decide (id ≠ unitId)))
          message := unitId ++ " abgezogen." } := by
  simp [unassignIncident, hid, ho]

theorem unassign_other_id (incidentId : String) (type : UnitType) (unitId : String)
    (inc : Incident) (h : inc.id ≠ incidentId) :
    unassignIncident incidentId type unitId inc = inc := by
  simp [unassignIncident, h]

/-- C16 (unassign). `unassignUnit(incidentId, type, unitId)` changes nothing of the state but
the incident list, keeps the length of that list, and returns every incident with another id
or another status than open as it is (so the whole list is unchanged when no open incident
has the id); an open incident with the id keeps all fields but `assigned` and `message`:
`assigned[type]` loses every occurrence of `unitId` and keeps the other ids in order, the
lists of the other types are unchanged. -/
theorem unassign_frame (incidentId : String) (type : UnitType) (unitId : String) (g : Game) :
    unassignUnit incidentId type unitId g =
      { g with incidents := (unassignUnit incidentId type unitId g).incidents } ∧
    (unassignUnit incidentId type unitId g).pool = g.pool ∧
    (unassignUnit incidentId type unitId g).score = g.score ∧
    (unassignUnit incidentId type unitId g).incidents.length = g.incidents.length ∧
    ((∀ inc ∈ g.incidents, inc.id = incidentId → inc.status ≠ Status.open_) →
      (unassignUnit incidentId type unitId g).incidents = g.incidents) ∧
    (∀ (i : Nat) (inc : Incident), g.incidents[i]? = some inc →
      ∃ inc' : Incident, (unassignUnit incidentId type unitId g).incidents[i]? = some inc' ∧
        ((inc.id ≠ incidentId ∨ inc.status ≠ Status.open_) → inc' = inc) ∧
        ((inc.id = incidentId ∧ inc.status = Status.open_) →
          inc' = { inc with assigned := inc'.assigned, message := inc'.message } ∧
          inc'.message = unitId ++ " abgezogen." ∧
          getAssigned inc'.assigned type =
            (getAssigned inc.assigned type).filter (fun id => decide (id ≠ unitId)) ∧
          ∀ ty : UnitType, ty ≠ type →
            getAssigned inc'.assigned ty = getAssigned inc.assigned ty)) := by
  refine ⟨rfl, rfl, rfl, by simp [unassignUnit], ?_, ?_⟩
  · intro h
    show g.incidents.map (unassignIncident incidentId type unitId) = g.incidents
    have : ∀ inc ∈ g.incidents, unassignIncident incidentId type unitId inc = inc := by
      intro inc hinc
      by_cases hid : inc.id = incidentId
      · exact unassign_not_open _ _ _ inc (h inc hinc hid)
      · exact unassign_other_id _ _ _ inc hid
    calc g.incidents.map (unassignIncident incidentId type unitId)
        = g.incidents.map id := List.map_congr_left this
      _ = g.incidents := List.map_id _
  · intro i inc hi
    refine ⟨unassignIncident incidentId type unitId inc, ?_, ?_, ?_⟩
    · simp [unassignUnit, List.getElem?_map, hi]
    · rintro (h | h)
      · exact unassign_other_id _ _ _ inc h
      · exact unassign_not_open _ _ _ inc h
    · rintro ⟨hid, ho⟩
      rw [unassign_open incidentId type unitId inc hid ho]
      exact ⟨rfl, rfl, getAssigned_setAssigned_same _ _ _,
        fun ty hty => getAssigned_setAssigned_other _ _ _ _ hty⟩

/-! ## Requirement monotonicity -/

theorem applyEvent_assigned_length (inc : Incident) (e : IncidentEvent)
    (h : inc.status = Status.working ∨ inc.status = Status.done) :
    (applyEvent inc e).requirements = inc.requirements ∧
    ∀ ty : UnitType,
      (getAssigned inc.assigned ty).length ≤ (getAssigned (applyEvent inc e).assigned ty).length := by
  cases e with
  | tick t =>
    simp only [applyEvent]
    rcases h with h | h
    · by_cases hp : 1 ≤ newProgress t inc
      · rw [update_working_finished t inc h hp]
        exact ⟨rfl, fun _ => le_refl _⟩
      · rw [update_working_unfinished t inc h (not_le.mp hp)]
        exact ⟨rfl, fun _ => le_refl _⟩
    · rw [update_terminal t inc (Or.inl h)]
      exact ⟨rfl, fun _ => le_refl _⟩
  | arrival a b c n =>
    simp only [applyEvent]
    rcases h with h | h
    · by_cases hid : inc.id = a
      · have r := arrival_facts a b c n inc hid (Or.inr h)
        refine ⟨r.2.2.1, fun ty => ?_⟩
        by_cases hty : ty = b
        · subst hty
          rw [r.1]; simp
        · rw [r.2.1 ty hty]
      · rw [arrival_other_id a b c n inc hid]
        exact ⟨rfl, fun _ => le_refl _⟩
    · rw [arrival_terminal a b c n inc (Or.inl h)]
      exact ⟨rfl, fun _ => le_refl _⟩
  | unassign a b c =>
    simp only [applyEvent]
    have hno : inc.status ≠ Status.open_ := by
      rcases h with h | h <;> simp [h]
    rw [unassign_not_open a b c inc hno]
    exact ⟨rfl, fun _ => le_refl _⟩

/-- C18 (requirement monotonicity). For a working incident whose requirements are met, a
tick update, the arrival effect of any dispatch and `unassignUnit` with any arguments, and
any sequence of them, leave the length of `assigned[type]` at least as large as before for
every type, and `requirementsMet` still holds afterwards. -/
theorem requirement_monotonicity (inc : Incident) (evs : List IncidentEvent)
    (hw : inc.status = Status.working) (hm : requirementsMet inc = true) :
    (∀ ty : UnitType,
      (getAssigned inc.assigned ty).length ≤
        (getAssigned (applyEvents inc evs).assigned ty).length) ∧
    requirementsMet (applyEvents inc evs) = true := by
  have key : ∀ (es : List IncidentEvent) (a : Incident),
      (a.status = Status.working ∨ a.status = Status.done) →
      (applyEvents a es).requirements = a.requirements ∧
      ∀ ty : UnitType,
        (getAssigned a.assigned ty).length ≤
          (getAssigned (applyEvents a es).assigned ty).length := by
    intro es
    induction es with
    | nil => intro a _; exact ⟨rfl, fun _ => le_refl _⟩
    | cons e es ih =>
      intro a ha
      obtain ⟨r1, l1⟩ := applyEvent_assigned_length a e ha
      obtain ⟨r2, l2⟩ := ih (applyEvent a e) (applyEvent_working_or_done a e ha)
      exact ⟨r2.trans r1, fun ty => le_trans (l1 ty) (l2 ty)⟩
  obtain ⟨r, l⟩ := key evs inc (Or.inl hw)
  exact ⟨l, requirementsMet_mono inc _ r l hm⟩

/-- C18, at a concrete input: the working kitchen fire through a tick, the arrival of LF-2
and an attempt to unassign LF-1. -/
theorem requirement_monotonicity_witness :
    kitchenFireWorking.status = Status.working ∧
    requirementsMet kitchenFireWorking = true ∧
    requirementsMet (applyEvents kitchenFireWorking
      [IncidentEvent.tick 6000,
       IncidentEvent.arrival kitchenFireWorking.id UnitType.LF "LF-2" 7000,
       IncidentEvent.unassign kitchenFireWorking.id UnitType.LF "LF-1"]) = true :=
  ⟨rfl, by decide, (requirement_monotonicity kitchenFireWorking _ rfl (by decide)).2⟩

/-! ## Runs of the game -/

theorem run_append (g : Game) (as bs : List Event) :
    run g (as ++ bs) = run (run g as) bs := by
  simp [run, List.foldl_append]

theorem run_cons (g : Game) (e : Event) (es : List Event) :
    run g (e :: es) = run (step g e) es := rfl

/-- A property that holds at the start and is kept by every event holds after every run. -/
theorem run_invariant (P : Game → Prop) (hstep : ∀ g e, P g → P (step g e)) :
    ∀ (evs : List Event) (g : Game), P g → P (run g evs) := by
  intro evs
  induction evs with
  | nil => intro g hg; exact hg
  | cons e es ih => intro g hg; exact ih (step g e) (hstep g e hg)

/-! ## The spawner -/

theorem spawnIncident_length (c : SpawnChoice) (list : List Incident) :
    (spawnIncident c list).length =
      if list.length ≥ GAME_CONFIG.maxOpenIncidents then list.length else list.length + 1 := by
  unfold spawnIncident
  split_ifs <;> simp

theorem tick_incidents (t : Int) (c : SpawnChoice) (g : Game) (hr : g.running = true) :
    (tick t c g).incidents =
      ((if g.spawnAcc + (t - (if g.lastTick = 0 then t else g.lastTick))
            ≥ GAME_CONFIG.spawnEveryMs
          then spawnIncident c g.incidents else g.incidents).map
        (updateIncidentProgress t)).map Prod.fst := by
  simp [tick, hr]

theorem tick_paused (t : Int) (c : SpawnChoice) (g : Game) (hr : g.running = false) :
    tick t c g = { g with lastTick := t } := by
  simp [tick, hr]

theorem step_incidents_length (g : Game) (e : Event)
    (h : g.incidents.length ≤ GAME_CONFIG.maxOpenIncidents) :
    (step g e).incidents.length ≤ GAME_CONFIG.maxOpenIncidents := by
  cases e with
  | toggleRunning => exact h
  | tick t c =>
    show (tick t c g).incidents.length ≤ _
    by_cases hr : g.running = true
    · rw [tick_incidents t c g hr]
      simp only [List.length_map]
      have key : (spawnIncident c g.incidents).length ≤ GAME_CONFIG.maxOpenIncidents := by
        rw [spawnIncident_length]
        split_ifs with h2
        · exact h
        · exact Nat.lt_of_not_ge h2
      split_ifs <;> first | exact key | exact h
    · have hr2 : g.running = false := by simpa using hr
      rw [tick_paused t c g hr2]
      exact h
  | assign a b t =>
    show (assignUnit a b t g).incidents.length ≤ _
    rw [assignUnit_incidents a b t g]
    exact h
  | arrive k n =>
    show (arrive k n g).incidents.length ≤ _
    unfold arrive
    split
    · exact h
    · split_ifs
      · exact h
      · simpa using h
  | unassign a b c =>
    show (unassignUnit a b c g).incidents.length ≤ _
    simpa [unassignUnit] using h

/-- C11 (capacity enforcement). In every state reachable from the initial state by
start/pause clicks, ticks (with their spawns), assign and unassign calls and arrival
effects, the incident list has at most `maxOpenIncidents` (6) entries, so the number of
incidents with status open or working is at most 6. -/
theorem capacity_enforcement (evs : List Event) :
    (run initialGame evs).incidents.length ≤ GAME_CONFIG.maxOpenIncidents ∧
    (openIncidents (run initialGame evs).incidents).length ≤ GAME_CONFIG.maxOpenIncidents := by
  have h : (run initialGame evs).incidents.length ≤ GAME_CONFIG.maxOpenIncidents :=
    run_invariant (fun g => g.incidents.length ≤ GAME_CONFIG.maxOpenIncidents)
      step_incidents_length evs initialGame (by decide)
  exact ⟨h, le_trans (List.length_filter_le _ _) h⟩

/-- C10 fails on the code: after the run `sixMissed` the game is running with six incidents,
all missed, so no incident is open or working; the tick of 75500 brings the spawn
accumulator to 5500 and resets it to 0, but appends no incident, because the spawner
compares the length of the whole list with `maxOpenIncidents`. -/
theorem spawn_blocked_by_finished_incidents :
    (run initialGame sixMissed).running = true ∧
    (run initialGame sixMissed).incidents.length = 6 ∧
    (openIncidents (run initialGame sixMissed).incidents).length = 0 ∧
    (run initialGame sixMissed).spawnAcc + (75500 - (run initialGame sixMissed).lastTick)
      = GAME_CONFIG.spawnEveryMs ∧
    (tick 75500 (numberedChoice 8) (run initialGame sixMissed)).spawnAcc = 0 ∧
    (tick 75500 (numberedChoice 8) (run initialGame sixMissed)).incidents
      = (run initialGame sixMissed).incidents := by
  decide!

/-! ## Runs that show where the code leaves the documented behaviour -/

/-- C15 fails on the code: in the run `earlyRelease` (tick times 1000, 6500, 12000, 22000) the
kitchen fire is working at progress 9/16 with LF-1 in its `assigned.LF`, and LF-1 is ready
again: the unit is released 11500 ms after its own arrival, whatever the state of the
incident. -/
theorem unit_released_while_incident_works :
    ((run initialGame earlyRelease).incidents.map
        (fun i => (i.id, i.status, i.progress, getAssigned i.assigned UnitType.LF))).head?
      = some ("einsatz-k1tch3", Status.working, 9 / 16, ["LF-1"]) ∧
    ((run initialGame earlyRelease).pool.map (fun u => (u.id, u.status, u.task))).head?
      = some ("LF-1", UnitStatus.ready, none) := by
  decide!

/-- C19 fails on the code: in the run `pausedRun` the water damage is working at progress
1/500 when the game is paused; the frames that pass while paused change only `lastTick`;
after the resume the first running frame, 16 ms after the last paused one, advances the
clock by 16 but takes the progress from 1/500 to 1 and resolves the incident late (-80):
the progress delta is `t - lastUpdate`, which spans the pause. -/
theorem pause_counts_as_work :
    (run initialGame (pausedRun.take 9)) =
      { run initialGame (pausedRun.take 7) with lastTick := 30000 } ∧
    (run initialGame pausedRun).running = true ∧
    (run initialGame pausedRun).lastTick = 30000 ∧
    (run initialGame pausedRun).incidents.map (fun i => (i.status, i.progress, i.lastUpdate))
      = [(Status.working, 1 / 500, 10516)] ∧
    (tick 30016 (spawnAt 2 "k1tch3" 30016 0) (run initialGame pausedRun)).clock
      = (run initialGame pausedRun).clock + 16 ∧
    (tick 30016 (spawnAt 2 "k1tch3" 30016 0) (run initialGame pausedRun)).incidents.map
        (fun i => (i.status, i.progress, i.lastUpdate))
      = [(Status.done, 1, 30016)] ∧
    (tick 30016 (spawnAt 2 "k1tch3" 30016 0) (run initialGame pausedRun)).score
      = (run initialGame pausedRun).score + GAME_CONFIG.points.slowPenalty := by
  decide!

/-- C1 as stated fails. After the run `reuseAfterDone` the id LF-1 occurs twice over the
assigned lists: in the water damage, which is done and keeps its list, and in the open
kitchen fire LF-1 was sent to after its release. After the run `doubleAttach` LF-1 occurs
twice in `assigned.LF` of one open incident, because it was released while that incident was
still open. -/
theorem single_assignment_counterexample :
    occurrences "LF-1" (run initialGame reuseAfterDone).incidents = 2 ∧
    ((run initialGame reuseAfterDone).incidents.map
        (fun i => (i.id, i.status, getAssigned i.assigned UnitType.LF))).take 2
      = [("einsatz-w4t3r0", Status.done, ["LF-1"]),
         ("einsatz-k1tch3", Status.open_, ["LF-1"])] ∧
    occurrences "LF-1" (run initialGame doubleAttach).incidents = 2 ∧
    ((run initialGame doubleAttach).incidents.map
        (fun i => (i.id, i.status, getAssigned i.assigned UnitType.LF))).head?
      = some ("einsatz-f14t00", Status.open_, ["LF-1", "LF-1"]) := by
  decide!

/-! ## Counting occurrences of a unit id -/

theorem occursIn_eq (u : String) (inc : Incident) :
    occursIn u inc =
      (getAssigned inc.assigned UnitType.LF).count u +
      ((getAssigned inc.assigned UnitType.DLK).count u +
      ((getAssigned inc.assigned UnitType.RW).count u +
      ((getAssigned inc.assigned UnitType.ELW).count u +
      (getAssigned inc.assigned UnitType.RTW).count u))) := by
  simp [occursIn, UNIT_TYPES]

theorem occursIn_le_of_counts (u : String) (a b : Incident) (d : Nat) (ty : UnitType)
    (hty : (getAssigned a.assigned ty).count u ≤ (getAssigned b.assigned ty).count u + d)
    (hother : ∀ ty', ty' ≠ ty →
      (getAssigned a.assigned ty').count u ≤ (getAssigned b.assigned ty').count u) :
    occursIn u a ≤ occursIn u b + d := by
  rw [occursIn_eq, occursIn_eq]
  cases ty
  · have h1 := hother UnitType.DLK (by simp)
    have h2 := hother UnitType.RW (by simp)
    have h3 := hother UnitType.ELW (by simp)
    have h4 := hother UnitType.RTW (by simp)
    omega
  · have h1 := hother UnitType.LF (by simp)
    have h2 := hother UnitType.RW (by simp)
    have h3 := hother UnitType.ELW (by simp)
    have h4 := hother UnitType.RTW (by simp)
    omega
  · have h1 := hother UnitType.LF (by simp)
    have h2 := hother UnitType.DLK (by simp)
    have h3 := hother UnitType.ELW (by simp)
    have h4 := hother UnitType.RTW (by simp)
    omega
  · have h1 := hother UnitType.LF (by simp)
    have h2 := hother UnitType.DLK (by simp)
    have h3 := hother UnitType.RW (by simp)
    have h4 := hother UnitType.RTW (by simp)
    omega
  · have h1 := hother UnitType.LF (by simp)
    have h2 := hother UnitType.DLK (by simp)
    have h3 := hother UnitType.RW (by simp)
    have h4 := hother UnitType.ELW (by simp)
    omega

theorem liveOccurrences_map_le (u : String) (f : Incident → Incident) (l : List Incident)
    (h : ∀ x ∈ l, liveOccursIn u (f x) ≤ liveOccursIn u x) :
    liveOccurrences u (l.map f) ≤ liveOccurrences u l := by
  induction l with
  | nil => simp [liveOccurrences]
  | cons x xs ih =>
    have hx := h x (List.mem_cons_self _ _)
    have hxs := ih (fun y hy => h y (List.mem_cons_of_mem _ hy))
    simp only [liveOccurrences, List.map_cons, List.sum_cons] at hxs ⊢
    omega

theorem update_assigned (t : Int) (inc : Incident) :
    (updateIncidentProgress t inc).1.assigned = inc.assigned ∧
    (updateIncidentProgress t inc).1.id = inc.id ∧
    (updateIncidentProgress t inc).1.requirements = inc.requirements := by
  rcases live_or_terminal inc with hl | hterm
  · rcases hl with ho | hw
    · by_cases ht : t > inc.deadline
      · rw [update_open_late t inc ho ht]; exact ⟨rfl, rfl, rfl⟩
      · rw [update_open_early t inc ho (not_lt.mp ht)]; exact ⟨rfl, rfl, rfl⟩
    · by_cases hp : 1 ≤ newProgress t inc
      · rw [update_working_finished t inc hw hp]; exact ⟨rfl, rfl, rfl⟩
      · rw [update_working_unfinished t inc hw (not_le.mp hp)]; exact ⟨rfl, rfl, rfl⟩
  · rw [update_terminal t inc hterm]; exact ⟨rfl, rfl, rfl⟩

theorem update_live_back (t : Int) (inc : Incident)
    (h : Live (updateIncidentProgress t inc).1) : Live inc := by
  rcases live_or_terminal inc with hl | hterm
  · exact hl
  · rw [update_terminal t inc hterm] at h
    exact h

theorem liveOccursIn_update (u : String) (t : Int) (inc : Incident) :
    liveOccursIn u (updateIncidentProgress t inc).1 ≤ liveOccursIn u inc := by
  unfold liveOccursIn
  by_cases h : Live (updateIncidentProgress t inc).1
  · have h2 := update_live_back t inc h
    unfold Live at h h2
    rw [if_pos h, if_pos h2]
    simp [occursIn, (update_assigned t inc).1]
  · unfold Live at h
    rw [if_neg h]
    exact Nat.zero_le _

theorem liveOccursIn_createIncident (u : String) (c : SpawnChoice) :
    liveOccursIn u (createIncident c) = 0 := by
  simp [liveOccursIn, occursIn, createIncident, getAssigned, UNIT_TYPES]

theorem liveOccurrences_spawn (u : String) (c : SpawnChoice) (l : List Incident) :
    liveOccurrences u (spawnIncident c l) = liveOccurrences u l := by
  unfold spawnIncident
  split_ifs
  · rfl
  · simp [liveOccurrences, liveOccursIn_createIncident]

theorem tick_incidents_cases (t : Int) (c : SpawnChoice) (g : Game) (hr : g.running = true) :
    (tick t c g).incidents =
        (spawnIncident c g.incidents).map (fun i => (updateIncidentProgress t i).1) ∨
    (tick t c g).incidents = g.incidents.map (fun i => (updateIncidentProgress t i).1) := by
  rw [tick_incidents t c g hr, List.map_map]
  by_cases h : g.spawnAcc + (t - (if g.lastTick = 0 then t else g.lastTick))
      ≥ GAME_CONFIG.spawnEveryMs
  · left; rw [if_pos h]; rfl
  · right; rw [if_neg h]; rfl

theorem liveOccurrences_tick (u : String) (t : Int) (c : SpawnChoice) (g : Game) :
    liveOccurrences u (tick t c g).incidents ≤ liveOccurrences u g.incidents := by
  by_cases hr : g.running = true
  · rcases tick_incidents_cases t c g hr with e | e
    · rw [e]
      calc liveOccurrences u
            (List.map (fun i => (updateIncidentProgress t i).1) (spawnIncident c g.incidents))
          ≤ liveOccurrences u (spawnIncident c g.incidents) :=
            liveOccurrences_map_le u _ _ (fun x _ => liveOccursIn_update u t x)
        _ = liveOccurrences u g.incidents := liveOccurrences_spawn u c _
    · rw [e]
      exact liveOccurrences_map_le u _ _ (fun x _ => liveOccursIn_update u t x)
  · have hr2 : g.running = false := by simpa using hr
    rw [tick_paused t c g hr2]

theorem arrival_id (incidentId : String) (type : UnitType) (unitId : String) (n : Int)
    (inc : Incident) : (arrivalIncident incidentId type unitId n inc).id = inc.id := by
  simp only [arrivalIncident]
  split_ifs <;> rfl

theorem unassign_id (incidentId : String) (type : UnitType) (unitId : String)
    (inc : Incident) : (unassignIncident incidentId type unitId inc).id = inc.id := by
  simp only [unassignIncident]
  split_ifs <;> rfl

theorem liveOccursIn_arrival (u : String) (incidentId : String) (type : UnitType)
    (unitId : String) (n : Int) (inc : Incident) :
    liveOccursIn u (arrivalIncident incidentId type unitId n inc) ≤
      liveOccursIn u inc + (if inc.id = incidentId ∧ unitId = u then 1 else 0) := by
  by_cases hid : inc.id = incidentId
  · rcases live_or_terminal inc with hl | hterm
    · have r := arrival_facts incidentId type unitId n inc hid hl
      have hlive : Live (arrivalIncident incidentId type unitId n inc) := by
        rcases hl with ho | hw
        · by_cases hm : requirementsMet (arrivalIncident incidentId type unitId n inc) = true
          · exact Or.inr (r.2.2.2.1 ho hm).1
          · exact Or.inl (r.2.2.2.2.1 ho (by simpa using hm)).1
        · exact Or.inr (r.2.2.2.2.2 hw).1
      unfold Live at hl hlive
      unfold liveOccursIn
      rw [if_pos hl, if_pos hlive]
      by_cases hu : unitId = u
      · rw [if_pos ⟨hid, hu⟩]
        apply occursIn_le_of_counts u _ _ 1 type
        · rw [r.1]; simp [List.count_append, hu]
        · intro ty' hty'; rw [r.2.1 ty' hty']
      · rw [if_neg (fun h => hu h.2)]
        apply occursIn_le_of_counts u _ _ 0 type
        · rw [r.1]
          have : ¬ (unitId == u) = true := by simpa using hu
          simp [List.count_append, List.count_cons, this]
        · intro ty' hty'; rw [r.2.1 ty' hty']
    · rw [arrival_terminal _ _ _ _ inc hterm]
      exact Nat.le_add_right _ _
  · rw [arrival_other_id _ _ _ _ inc hid]
    exact Nat.le_add_right _ _

theorem liveOccurrences_arrival (u : String) (incidentId : String) (type : UnitType)
    (unitId : String) (n : Int) (l : List Incident)
    (hnd : (l.map (fun i => i.id)).Nodup) :
    liveOccurrences u (l.map (arrivalIncident incidentId type unitId n)) ≤
      liveOccurrences u l + (if unitId = u then 1 else 0) := by
  induction l with
  | nil => simp [liveOccurrences]
  | cons x xs ih =>
    rw [List.map_cons, List.nodup_cons] at hnd
    obtain ⟨hx, hxs⟩ := hnd
    have h1 := liveOccursIn_arrival u incidentId type unitId n x
    by_cases hid : x.id = incidentId
    · have hrest : xs.map (arrivalIncident incidentId type unitId n) = xs := by
        have : ∀ y ∈ xs, arrivalIncident incidentId type unitId n y = y := by
          intro y hy
          apply arrival_other_id
          intro hyid
          apply hx
          rw [hid, ← hyid]
          exact List.mem_map_of_mem (fun i => i.id) hy
        calc xs.map (arrivalIncident incidentId type unitId n)
            = xs.map id := List.map_congr_left this
          _ = xs := List.map_id _
      simp only [liveOccurrences, List.map_cons, List.sum_cons, hrest]
      have h2 : (if x.id = incidentId ∧ unitId = u then 1 else 0) ≤
          (if unitId = u then 1 else 0) := by
        by_cases hu : unitId = u <;> simp [hu, hid]
      omega
    · have h3 := ih hxs
      simp only [liveOccurrences, List.map_cons, List.sum_cons] at h3 ⊢
      have h2 : (if x.id = incidentId ∧ unitId = u then 1 else 0) = 0 := by simp [hid]
      omega

theorem liveOccursIn_unassign (u : String) (incidentId : String) (type : UnitType)
    (unitId : String) (inc : Incident) :
    liveOccursIn u (unassignIncident incidentId type unitId inc) ≤ liveOccursIn u inc := by
  by_cases h : inc.id = incidentId ∧ inc.status = Status.open_
  · rw [unassign_open incidentId type unitId inc h.1 h.2]
    have hl : inc.status = Status.open_ ∨ inc.status = Status.working := Or.inl h.2
    unfold liveOccursIn
    simp only []
    rw [if_pos hl, if_pos hl]
    have := occursIn_le_of_counts u
      { inc with
          assigned := setAssigned inc.assigned type
            ((getAssigned inc.assigned type).filter (fun id => decide (id ≠ unitId)))
          message := unitId ++ " abgezogen." } inc 0 type
      (by
        simp only [getAssigned_setAssigned_same]
        exact (List.filter_sublist _).count_le u)
      (by
        intro ty' hty'
        simp only []
        rw [getAssigned_setAssigned_other _ _ _ _ hty'])
    simpa using this
  · have : unassignIncident incidentId type unitId inc = inc := by
      by_cases hid : inc.id = incidentId
      · exact unassign_not_open _ _ _ inc (fun ho => h ⟨hid, ho⟩)
      · exact unassign_other_id _ _ _ inc hid
    rw [this]

/-! ## Pending timers -/

theorem pending_append (u : String) (timers : List Timer) (tm : Timer) :
    pending u (timers ++ [tm]) = pending u timers + (if tm.unitId = u then 1 else 0) := by
  simp [pending]

theorem pending_eraseIdx (u : String) (timers : List Timer) :
    ∀ (k : Nat) (tm : Timer), timers[k]? = some tm →
      pending u (timers.eraseIdx k) + (if tm.unitId = u then 1 else 0) = pending u timers := by
  induction timers with
  | nil => intro k tm h; simp at h
  | cons x xs ih =>
    intro k tm h
    cases k with
    | zero =>
      simp at h
      subst h
      simp [pending, List.eraseIdx, Nat.add_comm]
    | succ j =>
      simp at h
      have := ih j tm h
      simp only [pending, List.eraseIdx, List.map_cons, List.sum_cons] at this ⊢
      omega

/-! ## Single assignment -/

theorem findIndex_some (p : PoolUnit → Bool) (l : List PoolUnit) :
    ∀ i : Nat, findIndex p l = some i →
      ∃ (pre : List PoolUnit) (x : PoolUnit) (post : List PoolUnit),
        l = pre ++ x :: post ∧ p x = true ∧ ∀ u ∈ pre, p u = false := by
  induction l with
  | nil => intro i h; simp [findIndex] at h
  | cons y ys ih =>
    intro i h
    by_cases hy : p y = true
    · exact ⟨[], y, ys, rfl, hy, by simp⟩
    · have hy2 : p y = false := by simpa using hy
      simp only [findIndex, hy2] at h
      cases hf : findIndex p ys with
      | none => rw [hf] at h; simp at h
      | some j =>
        obtain ⟨pre, x, post, e, hx, hpre⟩ := ih j hf
        refine ⟨y :: pre, x, post, by simp [e], hx, ?_⟩
        intro u hu
        rcases List.mem_cons.mp hu with rfl | hu
        · exact hy2
        · exact hpre u hu

/-- The two outcomes of `assignUnit`: nothing, or the first ready unit of the type is
dispatched. -/
theorem assignUnit_cases (incidentId : String) (type : UnitType) (t : Int) (g : Game) :
    assignUnit incidentId type t g = g ∨
    ∃ (pre : List PoolUnit) (unit : PoolUnit) (post : List PoolUnit),
      g.pool = pre ++ unit :: post ∧ unit.status = UnitStatus.ready ∧
      assignUnit incidentId type t g =
        { g with
            pool := pre ++
              { unit with
                  status := UnitStatus.busy
                  busyUntil := t + GAME_CONFIG.travelMs
                  task := some { incidentId := incidentId, phase := Phase.toScene } } :: post
            timers := g.timers ++
              [{ incidentId := incidentId, type := type, unitId := unit.id,
                 due := t + GAME_CONFIG.travelMs }]
            score := g.score + GAME_CONFIG.points.assign } := by
  cases hf : findIndex (isReadyOfType type) g.pool with
  | none => left; simp [assignUnit, hf]
  | some i =>
    right
    obtain ⟨pre, x, post, e, hx, hpre⟩ := findIndex_some _ _ i hf
    have hx2 : x.type = type ∧ x.status = UnitStatus.ready := by
      simpa [isReadyOfType] using hx
    refine ⟨pre, x, post, e, hx2.2, ?_⟩
    apply assignUnit_first incidentId type t g pre x post e _ hx2.1 hx2.2
    intro u hu hcon
    have := hpre u hu
    simp [isReadyOfType, hcon.1, hcon.2] at this

theorem singleInv_assign (incidentId : String) (type : UnitType) (t : Int) (g : Game)
    (h : SingleInv g) : SingleInv (assignUnit incidentId type t g) := by
  rcases assignUnit_cases incidentId type t g with e | ⟨pre, unit, post, hpool, hready, e⟩
  · rw [e]; exact h
  · obtain ⟨hp, hi, hc, hd⟩ := h
    have hmem : unit ∈ g.pool := by rw [hpool]; simp
    have hzero := hd unit hmem hready
    rw [hpool, List.map_append, List.map_cons] at hp
    have hnot : unit.id ∉ pre.map (fun u => u.id) ++ post.map (fun u => u.id) := by
      have := List.nodup_middle.mp hp
      exact (List.nodup_cons.mp this).1
    rw [e]
    refine ⟨?_, hi, ?_, ?_⟩
    · show ((pre ++ _ :: post).map (fun u => u.id)).Nodup
      rw [List.map_append, List.map_cons]
      exact hp
    · intro u
      show liveOccurrences u g.incidents + pending u (g.timers ++ [_]) ≤ 1
      rw [pending_append]
      by_cases hu : unit.id = u
      · subst hu
        simp only [if_true]
        omega
      · simp only [if_neg hu]
        exact hc u
    · intro v hv hvready
      show liveOccurrences v.id g.incidents + pending v.id (g.timers ++ [_]) = 0
      rw [pending_append]
      have hv2 : v ∈ pre ∨ v ∈ post := by
        have hv3 : v ∈ pre ++ _ :: post := hv
        rcases List.mem_append.mp hv3 with h1 | h1
        · exact Or.inl h1
        · rcases List.mem_cons.mp h1 with h2 | h2
          · rw [h2] at hvready
            simp at hvready
          · exact Or.inr h2
      have hvne : unit.id ≠ v.id := by
        intro heq
        apply hnot
        rw [heq]
        rcases hv2 with h1 | h1
        · exact List.mem_append_left _ (List.mem_map_of_mem (fun u => u.id) h1)
        · exact List.mem_append_right _ (List.mem_map_of_mem (fun u => u.id) h1)
      have hvmem : v ∈ g.pool := by
        rw [hpool]
        rcases hv2 with h1 | h1
        · exact List.mem_append_left _ h1
        · exact List.mem_append_right _ (List.mem_cons_of_mem _ h1)
      simp only [if_neg hvne]
      exact hd v hvmem hvready

theorem arrive_cases (k : Nat) (n : Int) (g : Game) :
    arrive k n g = g ∨
    ∃ tm : Timer, g.timers[k]? = some tm ∧ tm.due ≤ n ∧
      arrive k n g =
        { g with
            incidents := g.incidents.map (arrivalIncident tm.incidentId tm.type tm.unitId n)
            pool := arrivalPool tm.incidentId tm.unitId n g.pool
            timers := g.timers.eraseIdx k } := by
  cases hk : g.timers[k]? with
  | none => left; simp [arrive, hk]
  | some tm =>
    by_cases hn : n < tm.due
    · left; simp [arrive, hk, hn]
    · right
      refine ⟨tm, rfl, not_lt.mp hn, ?_⟩
      simp only [arrive, hk]
      rw [if_neg hn]

theorem arrivalPool_ids (incidentId : String) (unitId : String) (n : Int)
    (p : List PoolUnit) :
    (arrivalPool incidentId unitId n p).map (fun u => u.id) = p.map (fun u => u.id) := by
  simp only [arrivalPool, List.map_map]
  apply List.map_congr_left
  intro u _
  simp only [Function.comp]
  split_ifs <;> rfl

theorem arrivalPool_ready (incidentId : String) (unitId : String) (n : Int)
    (p : List PoolUnit) (v : PoolUnit) (hv : v ∈ arrivalPool incidentId unitId n p)
    (hr : v.status = UnitStatus.ready) : v ∈ p ∧ v.id ≠ unitId := by
  simp only [arrivalPool, List.mem_map] at hv
  obtain ⟨u, hu, e⟩ := hv
  by_cases hid : u.id = unitId
  · rw [if_pos hid] at e
    rw [← e] at hr
    simp at hr
  · rw [if_neg hid] at e
    rw [← e]
    exact ⟨hu, hid⟩

theorem singleInv_arrive (k : Nat) (n : Int) (g : Game) (h : SingleInv g) :
    SingleInv (arrive k n g) := by
  rcases arrive_cases k n g with e | ⟨tm, hk, _, e⟩
  · rw [e]; exact h
  · obtain ⟨hp, hi, hc, hd⟩ := h
    rw [e]
    have hocc : ∀ u : String,
        liveOccurrences u (g.incidents.map (arrivalIncident tm.incidentId tm.type tm.unitId n))
          + pending u (g.timers.eraseIdx k)
        ≤ liveOccurrences u g.incidents + pending u g.timers := by
      intro u
      have h1 := liveOccurrences_arrival u tm.incidentId tm.type tm.unitId n g.incidents hi
      have h2 := pending_eraseIdx u g.timers k tm hk
      omega
    refine ⟨?_, ?_, ?_, ?_⟩
    · show ((arrivalPool tm.incidentId tm.unitId n g.pool).map (fun u => u.id)).Nodup
      rw [arrivalPool_ids]; exact hp
    · show ((g.incidents.map (arrivalIncident tm.incidentId tm.type tm.unitId n)).map
          (fun i => i.id)).Nodup
      have : (g.incidents.map (arrivalIncident tm.incidentId tm.type tm.unitId n)).map
          (fun i => i.id) = g.incidents.map (fun i => i.id) := by
        rw [List.map_map]
        apply List.map_congr_left
        intro i _
        exact arrival_id _ _ _ _ i
      rw [this]; exact hi
    · intro u
      exact le_trans (hocc u) (hc u)
    · intro v hv hvr
      obtain ⟨hvp, _⟩ := arrivalPool_ready _ _ _ _ v hv hvr
      have := hd v hvp hvr
      have := hocc v.id
      show liveOccurrences v.id
          (g.incidents.map (arrivalIncident tm.incidentId tm.type tm.unitId n))
          + pending v.id (g.timers.eraseIdx k) = 0
      omega

theorem singleInv_unassign (incidentId : String) (type : UnitType) (unitId : String)
    (g : Game) (h : SingleInv g) : SingleInv (unassignUnit incidentId type unitId g) := by
  obtain ⟨hp, hi, hc, hd⟩ := h
  have hocc : ∀ u : String,
      liveOccurrences u (g.incidents.map (unassignIncident incidentId type unitId))
        ≤ liveOccurrences u g.incidents :=
    fun u => liveOccurrences_map_le u _ _ (fun x _ => liveOccursIn_unassign u _ _ _ x)
  refine ⟨hp, ?_, ?_, ?_⟩
  · show ((g.incidents.map (unassignIncident incidentId type unitId)).map
        (fun i => i.id)).Nodup
    have : (g.incidents.map (unassignIncident incidentId type unitId)).map (fun i => i.id)
        = g.incidents.map (fun i => i.id) := by
      rw [List.map_map]
      apply List.map_congr_left
      intro i _
      exact unassign_id _ _ _ i
    rw [this]; exact hi
  · intro u
    have := hocc u
    have := hc u
    show liveOccurrences u (g.incidents.map (unassignIncident incidentId type unitId))
      + pending u g.timers ≤ 1
    omega
  · intro v hv hvr
    have := hocc v.id
    have := hd v hv hvr
    show liveOccurrences v.id (g.incidents.map (unassignIncident incidentId type unitId))
      + pending v.id g.timers = 0
    omega

theorem tick_pool_timers (t : Int) (c : SpawnChoice) (g : Game) (hr : g.running = true) :
    (tick t c g).pool = releasePool t g.pool ∧ (tick t c g).timers = g.timers := by
  simp [tick, hr]

theorem singleInv_tick (t : Int) (c : SpawnChoice) (g : Game) (h : SingleInv g)
    (hs : safeStep g (Event.tick t c) = true) : SingleInv (tick t c g) := by
  obtain ⟨hp, hi, hc, hd⟩ := h
  simp only [safeStep, Bool.and_eq_true, Bool.or_eq_true, Bool.not_eq_true'] at hs
  obtain ⟨hrel, hdis⟩ := hs
  have hdis2 : ((tick t c g).incidents.map (fun i => i.id)).Nodup := by
    simpa [distinctIds, step] using hdis
  by_cases hr : g.running = true
  · have hrel2 : noEarlyRelease t g = true := by
      rcases hrel with h1 | h1
      · rw [hr] at h1; simp at h1
      · exact h1
    obtain ⟨epool, etimers⟩ := tick_pool_timers t c g hr
    refine ⟨?_, hdis2, ?_, ?_⟩
    · rw [epool, releasePool_ids]; exact hp
    · intro u
      rw [etimers]
      have := liveOccurrences_tick u t c g
      have := hc u
      omega
    · intro v hv hvr
      rw [etimers]
      have hocc := liveOccurrences_tick v.id t c g
      rw [epool] at hv
      simp only [releasePool, List.mem_map] at hv
      obtain ⟨u, hu, e⟩ := hv
      have hid : v.id = u.id := by
        rw [← e]; unfold releaseUnit; split_ifs <;> rfl
      rw [hid] at hocc ⊢
      by_cases hb : u.status = UnitStatus.busy
      · by_cases hexp : u.busyUntil ≤ t
        · simp only [noEarlyRelease, List.all_eq_true] at hrel2
          have := hrel2 u hu
          simp [hb, hexp] at this
          omega
        · have : releaseUnit t u = u := by
            unfold releaseUnit
            simp [hb, hexp]
          rw [this] at e
          rw [← e, hb] at hvr
          simp at hvr
      · have hur : u.status = UnitStatus.ready := by
          cases hst : u.status with
          | ready => rfl
          | busy => exact absurd hst hb
        have := hd u hu hur
        omega
  · have hr2 : g.running = false := by simpa using hr
    rw [tick_paused t c g hr2]
    exact ⟨hp, hi, hc, hd⟩

theorem singleInv_step (g : Game) (e : Event) (h : SingleInv g) (hs : safeStep g e = true) :
    SingleInv (step g e) := by
  cases e with
  | toggleRunning => exact h
  | tick t c => exact singleInv_tick t c g h hs
  | assign a b t => exact singleInv_assign a b t g h
  | arrive k n => exact singleInv_arrive k n g h
  | unassign a b c => exact singleInv_unassign a b c g h

theorem singleInv_run (evs : List Event) :
    ∀ g : Game, SingleInv g → safeRun g evs = true → SingleInv (run g evs) := by
  induction evs with
  | nil => intro g h _; exact h
  | cons e es ih =>
    intro g h hs
    simp only [safeRun, Bool.and_eq_true] at hs
    exact ih (step g e) (singleInv_step g e h hs.1) hs.2

theorem singleInv_initial : SingleInv initialGame := by
  refine ⟨by decide, by decide, ?_, ?_⟩
  · intro u; simp [initialGame, liveOccurrences, pending]
  · intro v _ _; simp [initialGame, liveOccurrences, pending]

/-- C1 (single assignment), for the incidents that are not finished and runs without early
release. In every state reached from the initial state by start/pause clicks, ticks (with
their spawns), assign calls, arrival effects and unassign calls, such that no tick releases
a unit that still has a pending arrival or is listed in an open or working incident and the
random incident ids do not clash, each unit id occurs at most once in total over the
`assigned[type]` lists of the open and working incidents, and not at all while an arrival
of that unit is pending. -/
theorem single_assignment (evs : List Event) (hs : safeRun initialGame evs = true) :
    ∀ u : String,
      liveOccurrences u (run initialGame evs).incidents ≤ 1 ∧
      liveOccurrences u (run initialGame evs).incidents
        + pending u (run initialGame evs).timers ≤ 1 := by
  intro u
  have h := (singleInv_run evs initialGame singleInv_initial hs).2.2.1 u
  exact ⟨le_trans (Nat.le_add_right _ _) h, h⟩

/-- C1 amended, at a concrete input: the run `reuseAfterDone`, in which LF-1 is released
after its incident is done and then serves a second one. -/
theorem single_assignment_witness :
    safeRun initialGame reuseAfterDone = true ∧
    liveOccurrences "LF-1" (run initialGame reuseAfterDone).incidents ≤ 1 :=
  ⟨by decide!, (single_assignment reuseAfterDone (by decide!) "LF-1").1⟩

/-! ## Status and requirements -/

theorem requirementsMet_congr (a b : Incident) (hr : b.requirements = a.requirements)
    (ha : b.assigned = a.assigned) : requirementsMet b = requirementsMet a := by
  unfold requirementsMet
  rw [hr, ha]

theorem coherent_update (t : Int) (inc : Incident) (h : Coherent inc) :
    Coherent (updateIncidentProgress t inc).1 := by
  obtain ⟨hm, hp⟩ := h
  have hmet : requirementsMet (updateIncidentProgress t inc).1 = requirementsMet inc :=
    requirementsMet_congr _ _ (update_assigned t inc).2.2 (update_assigned t inc).1
  unfold Coherent
  rw [hmet]
  rcases live_or_terminal inc with hl | hterm
  · rcases hl with ho | hw
    · have hunmet : ¬ requirementsMet inc = true := by
        intro hc
        rcases hm.mp hc with h1 | h1 <;> rw [ho] at h1 <;> simp at h1
      by_cases ht : t > inc.deadline
      · rw [update_open_late t inc ho ht]
        simp [hunmet]
      · rw [update_open_early t inc ho (not_lt.mp ht)]
        simp [hunmet, ho, hp ho]
    · have hmet2 : requirementsMet inc = true := hm.mpr (Or.inl hw)
      by_cases hq : 1 ≤ newProgress t inc
      · rw [update_working_finished t inc hw hq]
        simp [hmet2]
      · rw [update_working_unfinished t inc hw (not_le.mp hq)]
        simp [hmet2, hw]
  · rw [update_terminal t inc hterm]
    exact ⟨hm, hp⟩

theorem coherent_arrival (incidentId : String) (type : UnitType) (unitId : String) (n : Int)
    (inc : Incident) (h : Coherent inc) :
    Coherent (arrivalIncident incidentId type unitId n inc) := by
  by_cases hid : inc.id = incidentId
  · rcases live_or_terminal inc with hl | hterm
    · have r := arrival_facts incidentId type unitId n inc hid hl
      have hprog := (arrival_progress incidentId type unitId n inc).1
      rcases hl with ho | hw
      · by_cases hm : requirementsMet (arrivalIncident incidentId type unitId n inc) = true
        · have := r.2.2.2.1 ho hm
          refine ⟨by simp [hm, this.1], fun hopen => ?_⟩
          rw [this.1] at hopen
          simp at hopen
        · have hm2 : requirementsMet (arrivalIncident incidentId type unitId n inc) = false := by
            simpa using hm
          have := r.2.2.2.2.1 ho hm2
          refine ⟨by simp [hm2, this.1], fun _ => ?_⟩
          rw [hprog]
          exact h.2 ho
      · have hst := (r.2.2.2.2.2 hw).1
        have hmet : requirementsMet (arrivalIncident incidentId type unitId n inc) = true := by
          apply requirementsMet_mono inc _ r.2.2.1 _ (h.1.mpr (Or.inl hw))
          intro ty
          by_cases hty : ty = type
          · subst hty
            rw [r.1]; simp
          · rw [r.2.1 ty hty]
        refine ⟨by simp [hmet, hst], fun hopen => ?_⟩
        rw [hst] at hopen
        simp at hopen
    · rw [arrival_terminal _ _ _ _ inc hterm]; exact h
  · rw [arrival_other_id _ _ _ _ inc hid]; exact h

theorem unassign_open_facts (incidentId : String) (type : UnitType) (unitId : String)
    (inc : Incident) (hid : inc.id = incidentId) (ho : inc.status = Status.open_) :
    (unassignIncident incidentId type unitId inc).requirements = inc.requirements ∧
    (unassignIncident incidentId type unitId inc).status = inc.status ∧
    (unassignIncident incidentId type unitId inc).progress = inc.progress ∧
    getAssigned (unassignIncident incidentId type unitId inc).assigned type =
      (getAssigned inc.assigned type).filter (fun id => decide (id ≠ unitId)) ∧
    ∀ ty : UnitType, ty ≠ type →
      getAssigned (unassignIncident incidentId type unitId inc).assigned ty =
        getAssigned inc.assigned ty := by
  rw [unassign_open incidentId type unitId inc hid ho]
  exact ⟨rfl, rfl, rfl, getAssigned_setAssigned_same _ _ _,
    fun ty hty => getAssigned_setAssigned_other _ _ _ _ hty⟩

theorem coherent_unassign (incidentId : String) (type : UnitType) (unitId : String)
    (inc : Incident) (h : Coherent inc) :
    Coherent (unassignIncident incidentId type unitId inc) := by
  by_cases hc : inc.id = incidentId ∧ inc.status = Status.open_
  · have hunmet : ¬ requirementsMet inc = true := by
      intro hmet
      rcases h.1.mp hmet with h1 | h1 <;> rw [hc.2] at h1 <;> simp at h1
    obtain ⟨f1, f2, f3, f4, f5⟩ := unassign_open_facts incidentId type unitId inc hc.1 hc.2
    have hun2 : ¬ requirementsMet (unassignIncident incidentId type unitId inc) = true := by
      intro hmet
      apply hunmet
      apply requirementsMet_mono (unassignIncident incidentId type unitId inc) inc f1.symm _ hmet
      intro ty
      by_cases hty : ty = type
      · subst hty
        rw [f4]
        exact List.length_filter_le _ _
      · rw [f5 ty hty]
    refine ⟨?_, fun _ => by rw [f3]; exact h.2 hc.2⟩
    constructor
    · intro hmet; exact absurd hmet hun2
    · intro hst
      rw [f2, hc.2] at hst
      simp at hst
  · have : unassignIncident incidentId type unitId inc = inc := by
      by_cases hid : inc.id = incidentId
      · exact unassign_not_open _ _ _ inc (fun ho => hc ⟨hid, ho⟩)
      · exact unassign_other_id _ _ _ inc hid
    rw [this]; exact h

theorem coherent_createIncident (c : SpawnChoice) : Coherent (createIncident c) := by
  obtain ⟨tpl, suffix, createdAt, jitter⟩ := c
  fin_cases tpl <;>
    simp [Coherent, createIncident, requirementsMet, templateAt, INCIDENT_TEMPLATES,
      getAssigned]

theorem coherent_applyEvent (inc : Incident) (e : IncidentEvent) (h : Coherent inc) :
    Coherent (applyEvent inc e) := by
  cases e with
  | tick t => exact coherent_update t inc h
  | arrival a b c n => exact coherent_arrival a b c n inc h
  | unassign a b c => exact coherent_unassign a b c inc h

theorem coherent_spawn (c : SpawnChoice) (l : List Incident) (h : ∀ inc ∈ l, Coherent inc) :
    ∀ inc ∈ spawnIncident c l, Coherent inc := by
  unfold spawnIncident
  split_ifs
  · exact h
  · intro inc hinc
    rcases List.mem_append.mp hinc with h1 | h1
    · exact h inc h1
    · have : inc = createIncident c := by simpa using h1
      rw [this]; exact coherent_createIncident c

theorem coherent_step (g : Game) (e : Event) (h : ∀ inc ∈ g.incidents, Coherent inc) :
    ∀ inc ∈ (step g e).incidents, Coherent inc := by
  cases e with
  | toggleRunning => exact h
  | tick t c =>
    show ∀ inc ∈ (tick t c g).incidents, Coherent inc
    by_cases hr : g.running = true
    · intro inc hinc
      rcases tick_incidents_cases t c g hr with e | e
      · rw [e] at hinc
        obtain ⟨x, hx, rfl⟩ := List.mem_map.mp hinc
        exact coherent_update t x (coherent_spawn c g.incidents h x hx)
      · rw [e] at hinc
        obtain ⟨x, hx, rfl⟩ := List.mem_map.mp hinc
        exact coherent_update t x (h x hx)
    · have hr2 : g.running = false := by simpa using hr
      rw [tick_paused t c g hr2]
      exact h
  | assign a b t =>
    show ∀ inc ∈ (assignUnit a b t g).incidents, Coherent inc
    rw [assignUnit_incidents a b t g]
    exact h
  | arrive k n =>
    show ∀ inc ∈ (arrive k n g).incidents, Coherent inc
    rcases arrive_cases k n g with e | ⟨tm, _, _, e⟩
    · rw [e]; exact h
    · rw [e]
      intro inc hinc
      obtain ⟨x, hx, rfl⟩ := List.mem_map.mp hinc
      exact coherent_arrival _ _ _ _ x (h x hx)
  | unassign a b c =>
    intro inc hinc
    obtain ⟨x, hx, rfl⟩ := List.mem_map.mp hinc
    exact coherent_unassign _ _ _ x (h x hx)

theorem applyEvents_append (inc : Incident) (as bs : List IncidentEvent) :
    applyEvents inc (as ++ bs) = applyEvents (applyEvents inc as) bs := by
  simp [applyEvents, List.foldl_append]

theorem spawnIncident_getElem? (c : SpawnChoice) (l : List Incident) (i : Nat) (a : Incident)
    (h : l[i]? = some a) : (spawnIncident c l)[i]? = some a := by
  unfold spawnIncident
  split_ifs
  · exact h
  · have hi : i < l.length := by
      by_contra hcon
      rw [List.getElem?_eq_none (not_lt.mp hcon)] at h
      simp at h
    rw [List.getElem?_append_left hi]
    exact h

/-- The incident at a position of the list stays at that position, and one event of the
game acts on it as a sequence of at most one incident event. -/
theorem incident_at_step (g : Game) (e : Event) (i : Nat) (a : Incident)
    (h : g.incidents[i]? = some a) :
    ∃ ies : List IncidentEvent, (step g e).incidents[i]? = some (applyEvents a ies) := by
  cases e with
  | toggleRunning => exact ⟨[], h⟩
  | tick t c =>
    show ∃ ies, (tick t c g).incidents[i]? = _
    by_cases hr : g.running = true
    · refine ⟨[IncidentEvent.tick t], ?_⟩
      rcases tick_incidents_cases t c g hr with e | e
      · rw [e, List.getElem?_map, spawnIncident_getElem? c _ i a h]
        rfl
      · rw [e, List.getElem?_map, h]
        rfl
    · have hr2 : g.running = false := by simpa using hr
      rw [tick_paused t c g hr2]
      exact ⟨[], h⟩
  | assign x y t =>
    show ∃ ies, (assignUnit x y t g).incidents[i]? = _
    rw [assignUnit_incidents x y t g]
    exact ⟨[], h⟩
  | arrive k n =>
    show ∃ ies, (arrive k n g).incidents[i]? = _
    rcases arrive_cases k n g with e | ⟨tm, _, _, e⟩
    · rw [e]; exact ⟨[], h⟩
    · rw [e]
      refine ⟨[IncidentEvent.arrival tm.incidentId tm.type tm.unitId n], ?_⟩
      show (g.incidents.map _)[i]? = _
      rw [List.getElem?_map, h]
      rfl
  | unassign x y z =>
    refine ⟨[IncidentEvent.unassign x y z], ?_⟩
    show (g.incidents.map _)[i]? = _
    rw [List.getElem?_map, h]
    rfl

theorem incident_at_run (evs : List Event) :
    ∀ (g : Game) (i : Nat) (a : Incident), g.incidents[i]? = some a →
      ∃ ies : List IncidentEvent, (run g evs).incidents[i]? = some (applyEvents a ies) := by
  induction evs with
  | nil => intro g i a h; exact ⟨[], h⟩
  | cons e es ih =>
    intro g i a h
    obtain ⟨ies1, h1⟩ := incident_at_step g e i a h
    obtain ⟨ies2, h2⟩ := ih (step g e) i (applyEvents a ies1) h1
    refine ⟨ies1 ++ ies2, ?_⟩
    rw [run_cons, h2, applyEvents_append]

/-- C20 (status/requirements coherence). In every state reached from the initial state by
start/pause clicks, ticks with spawns from `INCIDENT_TEMPLATES`, assign calls, arrival
effects and unassign calls, every incident has its requirements met if and only if its
status is working or done; an open incident has unmet requirements and progress 0, a missed
incident has unmet requirements; and an incident that is missed at the end had unmet
requirements in every earlier state of the run in which it existed. -/
theorem status_requirements_coherence (evs : List Event) :
    (∀ inc ∈ (run initialGame evs).incidents,
      (requirementsMet inc = true ↔
        (inc.status = Status.working ∨ inc.status = Status.done)) ∧
      (inc.status = Status.open_ → requirementsMet inc = false ∧ inc.progress = 0) ∧
      (inc.status = Status.missed → requirementsMet inc = false)) ∧
    (∀ (pre post : List Event) (i : Nat) (a b : Incident), evs = pre ++ post →
      (run initialGame pre).incidents[i]? = some a →
      (run initialGame evs).incidents[i]? = some b →
      b.status = Status.missed → requirementsMet a = false) := by
  have hall : ∀ es : List Event, ∀ inc ∈ (run initialGame es).incidents, Coherent inc :=
    fun es => run_invariant (fun g => ∀ inc ∈ g.incidents, Coherent inc) coherent_step es
      initialGame (by simp [initialGame])
  constructor
  · intro inc hinc
    obtain ⟨hm, hp⟩ := hall evs inc hinc
    refine ⟨hm, fun ho => ⟨?_, hp ho⟩, fun hmi => ?_⟩
    · cases hmet : requirementsMet inc with
      | false => rfl
      | true => rcases hm.mp hmet with h1 | h1 <;> rw [ho] at h1 <;> simp at h1
    · cases hmet : requirementsMet inc with
      | false => rfl
      | true => rcases hm.mp hmet with h1 | h1 <;> rw [hmi] at h1 <;> simp at h1
  · intro pre post i a b he ha hb hmissed
    cases hmet : requirementsMet a with
    | false => rfl
    | true =>
      have hcoh : Coherent a := hall pre a (List.getElem?_mem ha)
      have hwd := hcoh.1.mp hmet
      obtain ⟨ies, hies⟩ := incident_at_run post (run initialGame pre) i a ha
      rw [← run_append, ← he, hb] at hies
      have hb2 : b = applyEvents a ies := by simpa using hies
      have := applyEvents_working_or_done a ies hwd
      rw [← hb2, hmissed] at this
      simp at this

/-! ## Further concrete instances -/

/-- The spawner as coded: in a running tick in which the accumulator reaches `spawnEveryMs`
the accumulator is reset to 0, and one incident is appended exactly when the whole list,
finished incidents included, is shorter than `maxOpenIncidents`. -/
theorem spawn_rule_as_coded (t : Int) (c : SpawnChoice) (g : Game) (hr : g.running = true)
    (hacc : g.spawnAcc + (t - (if g.lastTick = 0 then t else g.lastTick))
      ≥ GAME_CONFIG.spawnEveryMs) :
    (tick t c g).spawnAcc = 0 ∧
    (g.incidents.length < GAME_CONFIG.maxOpenIncidents →
      (tick t c g).incidents =
        (g.incidents ++ [createIncident c]).map (fun i => (updateIncidentProgress t i).1)) ∧
    (g.incidents.length ≥ GAME_CONFIG.maxOpenIncidents →
      (tick t c g).incidents = g.incidents.map (fun i => (updateIncidentProgress t i).1)) := by
  refine ⟨?_, ?_, ?_⟩
  · simp only [tick, hr]
    simp [hacc]
  · intro hlt
    rw [tick_incidents t c g hr, if_pos hacc, List.map_map]
    unfold spawnIncident
    rw [if_neg (not_le.mpr hlt)]
    rfl
  · intro hge
    rw [tick_incidents t c g hr, if_pos hacc, List.map_map]
    unfold spawnIncident
    rw [if_pos hge]
    rfl

/-- C11, at a concrete run: after `sixMissed` and one more tick at 75500 at most six
incidents are open or working. -/
theorem capacity_enforcement_witness :
    (openIncidents
      (run initialGame (sixMissed ++ [Event.tick 75500 (numberedChoice 8)])).incidents).length
      ≤ GAME_CONFIG.maxOpenIncidents :=
  (capacity_enforcement (sixMissed ++ [Event.tick 75500 (numberedChoice 8)])).2

/-- C12, at a concrete input: LF assigned at 1000 in the initial pool reserves LF-1 until
4500 and adds 5 points; RW assigned while RW-1 is the only RW and busy changes nothing. -/
theorem assign_postcondition_witness :
    ((assignUnit "einsatz-k3x9qa" UnitType.LF 1000 initialGame).pool.map
        (fun u => (u.id, u.status, u.busyUntil, u.task))).take 2 =
      [("LF-1", UnitStatus.busy, 4500,
          some { incidentId := "einsatz-k3x9qa", phase := Phase.toScene }),
       ("LF-2", UnitStatus.ready, 0, none)] ∧
    (assignUnit "einsatz-k3x9qa" UnitType.LF 1000 initialGame).score = 5 ∧
    (assignUnit "einsatz-k3x9qa" UnitType.LF 5000 attachedGame).pool.length = 7 ∧
    (assignUnit "einsatz-k3x9qa" UnitType.LF 5000 attachedGame).incidents
      = attachedGame.incidents := by
  have r := (assign_postcondition "einsatz-k3x9qa" UnitType.LF 1000 initialGame).2.2
    [] (initialPool.get ⟨0, by decide⟩) (initialPool.drop 1) rfl (by simp) rfl rfl
  refine ⟨?_, r.2, by decide,
    (assign_postcondition "einsatz-k3x9qa" UnitType.LF 5000 attachedGame).1⟩
  rw [r.1]
  decide

/-- C16, at a concrete input: LF-1 is unassigned from the open kitchen fire; pool and score
stay as they are and the list `assigned.LF` of the incident becomes empty. -/
theorem unassign_frame_witness :
    (unassignUnit kitchenFire.id UnitType.LF "LF-1" attachedGame).pool = attachedGame.pool ∧
    (unassignUnit kitchenFire.id UnitType.LF "LF-1" attachedGame).score = attachedGame.score ∧
    (unassignUnit kitchenFire.id UnitType.LF "LF-1" attachedGame).incidents.map
        (fun i => (i.status, getAssigned i.assigned UnitType.LF)) = [(Status.open_, [])] ∧
    (unassignUnit "einsatz-zzzzzz" UnitType.LF "LF-1" attachedGame).incidents
      = attachedGame.incidents := by
  have r := unassign_frame kitchenFire.id UnitType.LF "LF-1" attachedGame
  have r2 := unassign_frame "einsatz-zzzzzz" UnitType.LF "LF-1" attachedGame
  refine ⟨r.2.1, r.2.2.1, by decide, r2.2.2.2.2.1 ?_⟩
  decide

/-- C17, at a concrete input: at 16000 the pool of `attachedGame` gets LF-1 back (it was
bound until 16000); at 15999 it does not. -/
theorem release_expired_witness :
    (releasePool 16000 attachedGame.pool)[0]? =
      some { id := "LF-1", type := UnitType.LF, status := UnitStatus.ready, busyUntil := 0,
             task := none } ∧
    (releasePool 15999 attachedGame.pool)[0]? = attachedGame.pool[0]? ∧
    (releasePool 16000 attachedGame.pool).length = 7 := by
  have h0 : attachedGame.pool[0]? =
      some { id := "LF-1", type := UnitType.LF, status := UnitStatus.busy, busyUntil := 16000,
             task := some { incidentId := kitchenFire.id, phase := Phase.atScene } } := by
    decide
  have a := (release_expired attachedGame.pool 16000).2.2.2 0 _ h0
  have b := (release_expired attachedGame.pool 15999).2.2.2 0 _ h0
  refine ⟨?_, ?_, ?_⟩
  · rw [a]; decide
  · rw [b, h0]; decide
  · rw [(release_expired attachedGame.pool 16000).1]; decide

/-- C20, at a concrete run: after `earlyRelease` (one working and two open incidents) every
incident has its requirements met exactly when it is working or done. -/
theorem status_requirements_coherence_witness :
    (run initialGame earlyRelease).incidents.map (fun i => (i.status, requirementsMet i))
      = [(Status.working, true), (Status.open_, false), (Status.open_, false)] ∧
    ∀ inc ∈ (run initialGame earlyRelease).incidents,
      (requirementsMet inc = true ↔
        (inc.status = Status.working ∨ inc.status = Status.done)) :=
  ⟨by decide!, fun inc hinc => ((status_requirements_coherence earlyRelease).1 inc hinc).1⟩

/-- The example incidents are what the code makes of the fresh kitchen fire: both arrivals at
4500 give `kitchenFireWorking`, and a tick at 12500 then gives `kitchenFireDone` with the
onTime score. -/
theorem example_incidents_reached :
    applyEvents kitchenFire
      [IncidentEvent.arrival kitchenFire.id UnitType.LF "LF-1" 4500,
       IncidentEvent.arrival kitchenFire.id UnitType.RTW "RTW-1" 4500] = kitchenFireWorking ∧
    updateIncidentProgress 12500 kitchenFireWorking = (kitchenFireDone, 120) := by
  decide!

end Firegame
